import Mathlib

/-!
Verification development for the CV/cover-letter generation pipeline
(orchestrator, project pre-filter, validator suite, retry controller).

The Python sources are shallowly embedded: every function below mirrors one
Python function of the repository, working over `String`/`List Char` with
explicitly implemented counterparts of the Python string primitives it uses
(`str.strip`, `str.split`, `str.lower`, `in`, and the handful of concrete
regular expressions appearing in the sources).  External collaborators
(the LLM client, `yaml.dump`, the prompt-template file) are passed in as
function parameters, as are the compiled matchers of *configured* regex
patterns; all regexes that are hard-coded in the sources are implemented
concretely.
-/

/-! ## Python string primitives -/

/-- ASCII whitespace as recognised by `str.strip` / `\s` (space, tab,
newline, carriage return, vertical tab, form feed). -/
def isPySpace (c : Char) : Bool :=
  c = ' ' || c = '\t' || c = '\n' || c = '\r' || c = Char.ofNat 11 || c = Char.ofNat 12

/-- The single-quote character, written via its code point. -/
def sQuote : String := String.singleton (Char.ofNat 39)

/-- The double-quote character. -/
def dQuote : String := String.singleton (Char.ofNat 34)

/-- Python `s.strip()` on a character list. -/
def pyStripList (cs : List Char) : List Char :=
  ((cs.dropWhile isPySpace).reverse.dropWhile isPySpace).reverse

/-- Python `s.strip()`. -/
def pyStrip (s : String) : String := String.mk (pyStripList s.data)

/-- Python `s.lower()` (ASCII case folding). -/
def pyLower (s : String) : String := String.mk (s.data.map Char.toLower)

/-- Python `s.startswith(p)`. -/
def pyStartsWith (s p : String) : Bool := p.data.isPrefixOf s.data

/-- Substring containment on character lists: `sub` occurs inside `l`
(Python `sub in l`, empty `sub` always contained). -/
def containsSub (sub : List Char) : List Char → Bool
  | [] => sub.isEmpty
  | c :: rest => sub.isPrefixOf (c :: rest) || containsSub sub rest

/-- Python `sub in s`. -/
def pyIn (sub s : String) : Bool := containsSub sub.data s.data

/-- Worker for `pySplitChar`: split at every occurrence of `sep`. -/
def splitCharGo (sep : Char) : List Char → List Char → List String
  | [], acc => [String.mk acc.reverse]
  | c :: rest, acc =>
      if c = sep then String.mk acc.reverse :: splitCharGo sep rest []
      else splitCharGo sep rest (c :: acc)

/-- Python `s.split(sep)` for a one-character separator (keeps empty pieces;
`"".split(sep) = [""]`). -/
def pySplitChar (sep : Char) (s : String) : List String := splitCharGo sep s.data []

/-- Python `sep.join(parts)` for a one-character separator. -/
def pyJoinChar (sep : Char) : List String → String
  | [] => ""
  | [s] => s
  | s :: rest => s ++ String.singleton sep ++ pyJoinChar sep rest

/-- Python `s.splitlines()` restricted to `\n` line breaks: like
`s.split("\n")` but without a trailing empty piece, and `[]` on `""`. -/
def pySplitlines (s : String) : List String :=
  if s = "" then []
  else
    let parts := pySplitChar '\n' s
    if parts.getLast? = some "" then parts.dropLast else parts

/-- Worker for `pySplitWs`: whitespace-run splitting, dropping empties
(Python `s.split()` with no argument). -/
def splitWsGo : List Char → List Char → List String
  | [], acc => if acc.isEmpty then [] else [String.mk acc.reverse]
  | c :: rest, acc =>
      if isPySpace c then
        if acc.isEmpty then splitWsGo rest []
        else String.mk acc.reverse :: splitWsGo rest []
      else splitWsGo rest (c :: acc)

/-- Python `s.split()` (split on whitespace runs, no empty pieces). -/
def pySplitWs (s : String) : List String := splitWsGo s.data []

/-- Worker collapsing each whitespace run to a single space
(`re.sub(r"\s+", " ", s)`); the flag records whether the previous
character belonged to a run. -/
def collapseWsGo : List Char → Bool → List Char
  | [], _ => []
  | c :: rest, prevWs =>
      if isPySpace c then
        if prevWs then collapseWsGo rest true
        else ' ' :: collapseWsGo rest true
      else c :: collapseWsGo rest false

/-- The `_normalize` helper shared by `fact_check.py` and `hallucination.py`:
`re.sub(r"\s+", " ", (s or "").lower().strip())`. -/
def pyNormalize (s : String) : String :=
  String.mk (collapseWsGo (pyStripList (pyLower s).data) false)

/-- Python `s[:n]` (slice of the first `n` code points). -/
def pyTake (n : Nat) (s : String) : String := String.mk (s.data.take n)

/-- Order-preserving deduplication; stands in for the membership behaviour
of a Python `set` built by successive `add` calls (iteration order of a
Python set is unspecified; every use below is order-insensitive). -/
def dedupGo : List String → List String → List String
  | [], _ => []
  | x :: rest, seen =>
      if seen.contains x then dedupGo rest seen
      else x :: dedupGo rest (x :: seen)

/-- Deduplicate, keeping first occurrences. -/
def pyDedup (l : List String) : List String := dedupGo l []

/-- Python `repr` of a string: quote choice as CPython does it (single
quotes unless the string contains one and no double quote).  Escape
sequences inside the string are not modelled; no string reaching this
function in the verified paths needs them. -/
def pyReprStr (s : String) : String :=
  if pyIn sQuote s && !(pyIn dQuote s) then dQuote ++ s ++ dQuote else sQuote ++ s ++ sQuote

/-- Python `repr` of a list of strings, e.g. as interpolated by f-strings. -/
def pyReprList (l : List String) : String :=
  "[" ++ String.intercalate ", " (l.map pyReprStr) ++ "]"


/-! ## `cv_core.py` -/

/-- Configuration constants of `cv_core.py`. -/
def MAX_PROJECTS_TO_SHOW : Nat := 3

/-- Maximum bullets kept per experience role (`cv_core.MAX_BULLETS_PER_ROLE`). -/
def MAX_BULLETS_PER_ROLE : Nat := 5

/-- Pre-filter pool size (`cv_core.CANDIDATE_POOL_SIZE`). -/
def CANDIDATE_POOL_SIZE : Nat := 8

/-- The closed archetype taxonomy (`cv_core.TASK_ARCHETYPES`). -/
def TASK_ARCHETYPES : List String :=
  ["data_analytics", "software_engineering", "embedded_systems",
   "mechanical_engineering", "project_management", "research_ml",
   "cloud_devops", "manufacturing_quality", "supply_chain",
   "consulting_enablement", "digital_transformation"]

/-- Hexadecimal digit test (`[0-9A-Fa-f]`). -/
def isHexDigit (c : Char) : Bool :=
  (c.toNat ≥ 48 && c.toNat ≤ 57) || (c.toNat ≥ 65 && c.toNat ≤ 70) ||
    (c.toNat ≥ 97 && c.toNat ≤ 102)

/-- Value of one hexadecimal digit. -/
def hexVal (c : Char) : Nat :=
  if c.toNat ≥ 97 then c.toNat - 87
  else if c.toNat ≥ 65 then c.toNat - 55
  else c.toNat - 48

/-- First pass of `fix_unicode_escapes`:
`re.sub(r"\\x([0-9A-Fa-f]{2})", chr ∘ int, text)`.  On a failed match the
scanner advances one character, exactly as `re.sub` does. -/
def subHexX : List Char → List Char
  | '\\' :: 'x' :: h1 :: h2 :: rest =>
      if isHexDigit h1 && isHexDigit h2 then
        Char.ofNat (16 * hexVal h1 + hexVal h2) :: subHexX rest
      else '\\' :: subHexX ('x' :: h1 :: h2 :: rest)
  | c :: rest => c :: subHexX rest
  | [] => []

/-- Second pass of `fix_unicode_escapes`:
`re.sub(r"\\u([0-9A-Fa-f]{4})", chr ∘ int, text)`. -/
def subHexU : List Char → List Char
  | '\\' :: 'u' :: h1 :: h2 :: h3 :: h4 :: rest =>
      if isHexDigit h1 && isHexDigit h2 && isHexDigit h3 && isHexDigit h4 then
        Char.ofNat (4096 * hexVal h1 + 256 * hexVal h2 + 16 * hexVal h3 + hexVal h4)
          :: subHexU rest
      else '\\' :: subHexU ('u' :: h1 :: h2 :: h3 :: h4 :: rest)
  | c :: rest => c :: subHexU rest
  | [] => []

/-- `cv_core.fix_unicode_escapes`: decode `\xNN` then `\uNNNN` escapes. -/
def fix_unicode_escapes (text : String) : String :=
  if text = "" then text else String.mk (subHexU (subHexX text.data))

/-- Bullet-line test used by `enforce_bullet_limit`
(`line.startswith("- ") or line.startswith("* ")` on the stripped line). -/
def isBulletLine (l : String) : Bool := pyStartsWith l "- " || pyStartsWith l "* "

/-- Worker for `enforce_bullet_limit`.  `started` tracks whether any line
has been emitted yet (the source tests `if cleaned:`, i.e. non-emptiness of
the output so far, which this flag tracks exactly); `count` is the running
bullet counter, reset on every non-bullet line. -/
def enforceGo (maxB : Nat) : List String → Bool → Nat → List String
  | [], _, _ => []
  | line :: rest, started, count =>
      let ls := pyStrip line
      if ls = "" then enforceGo maxB rest started count
      else if isBulletLine ls then
        if count < maxB then ls :: enforceGo maxB rest true (count + 1)
        else enforceGo maxB rest started count
      else
        (if started then ["", ls] else [ls]) ++ enforceGo maxB rest true 0

/-- `cv_core.enforce_bullet_limit`: limit bullets per role/block, resetting
the counter on header (non-bullet) lines. -/
def enforce_bullet_limit (text : String) (max_bullets : Nat) : String :=
  pyJoinChar '\n' (enforceGo max_bullets (pySplitChar '\n' text) false 0)


/-! ## Retry controller (`orchestrator._generate_with_feedback`) -/

/-- Model of the dictionaries returned by the validator callables: `valid`
and `passed` are `none` when the corresponding key is absent; `errors`,
`violations` and `feedback` default to empty as `dict.get` does.  Entries of
`errors`/`violations` are the strings `str(x)` produces for the values the
Python dict holds. -/
structure PyVResult where
  valid : Option Bool
  errors : List String
  passed : Option Bool
  violations : List String
  feedback : String

/-- One validator pass of `_generate_with_feedback`: fold the validator list
over `(all_pass, new_feedback)` exactly as the source loop does. -/
def runValidators (vs : List (String → PyVResult)) (text : String) : Bool × List String :=
  vs.foldl
    (fun acc v =>
      let r := v text
      let acc1 := if r.valid = some false then (false, acc.2 ++ r.errors) else acc
      if r.passed = some false then (false, acc1.2 ++ [r.feedback] ++ r.violations)
      else acc1)
    (true, [])

/-- The per-attempt cleanup of `_generate_with_feedback`:
`text = (text or "").strip()` followed by `fix_unicode_escapes`. -/
def cleanText (t : String) : String := fix_unicode_escapes (pyStrip t)

/-- The synthesized feedback string:
`"VALIDATION FAILED: " + "; ".join(str(x) for x in new_feedback if x)`. -/
def attemptFeedback (vs : List (String → PyVResult)) (text : String) : String :=
  "VALIDATION FAILED: " ++
    String.intercalate "; " ((runValidators vs text).2.filter (fun s => s ≠ ""))

/-- Loop body of `_generate_with_feedback`.  `gen i fb` is the text the
stateful Python callable `gen_fn` would return on its `i`-th invocation when
handed feedback `fb`; the result pairs the returned text with the trace of
calls made, each as (feedback argument, cleaned attempt text).  `fuel` is
the number of loop iterations left (`max_retries + 1` initially, never 0
there, so the fuel-0 branch is unreachable). -/
def gwfGo (gen : Nat → Option String → String) (vs : List (String → PyVResult)) :
    Nat → Nat → Option String → String × List (Option String × String)
  | 0, _, _ => ("", [])
  | fuel + 1, idx, fb =>
      let text := cleanText (gen idx fb)
      if (runValidators vs text).1 then (text, [(fb, text)])
      else
        match fuel with
        | 0 => (text, [(fb, text)])
        | fuel' + 1 =>
            let next := gwfGo gen vs (fuel' + 1) (idx + 1) (some (attemptFeedback vs text))
            (next.1, (fb, text) :: next.2)

/-- `orchestrator._generate_with_feedback`: generate a section with retry on
validation failure, returning the accepted text and the call trace. -/
def generateWithFeedback (gen : Nat → Option String → String)
    (vs : List (String → PyVResult)) (max_retries : Nat) :
    String × List (Option String × String) :=
  gwfGo gen vs (max_retries + 1) 0 none

/-! ## Data model (`profile.yaml` shapes used by the verified components) -/

/-- A project record (`{name, description, highlights[]}`) as read by the
pre-filter, the generators and the validators. -/
structure FProject where
  name : String
  description : String
  highlights : List String
deriving DecidableEq

/-- An experience role (`{company, position, location, startDate, endDate}`). -/
structure ExpEntry where
  company : String
  position : String
  location : String
  startDate : String
  endDate : String
deriving DecidableEq

/-- A certification record. -/
structure CertEntry where
  name : String
  issuer : String
  year : String
deriving DecidableEq

/-- An education record. -/
structure EduEntry where
  institution : String
  area : String
  courses : List String
deriving DecidableEq

/-- The candidate profile (read-only input of the pipeline).  Skill buckets
and the flat `skills` mapping are modelled as association lists of
well-formed entries; malformed YAML values (non-dict buckets, non-list
items) contribute nothing in the source and are not represented. -/
structure PyProfile where
  experience : List ExpEntry
  projects : List FProject
  certifications : List CertEntry
  education : List EduEntry
  skills_buckets : List (String × List String)
  soft_skills : List String
  skills : List (String × List String)
deriving DecidableEq

/-- The empty profile (all fields absent). -/
def emptyProfile : PyProfile :=
  { experience := [], projects := [], certifications := [], education := [],
    skills_buckets := [], soft_skills := [], skills := [] }

/-! ## `tools/pre_filter.py` -/

/-- Word-character test of the regex `\w` (ASCII range). -/
def isWordChar (c : Char) : Bool := c.isAlphanum || c = '_'

/-- Worker for `wordTokens`: accumulate the current `\w+` run. -/
def wordTokensGo : List Char → List Char → List String
  | [], acc => if acc.isEmpty then [] else [String.mk acc.reverse]
  | c :: rest, acc =>
      if isWordChar c then wordTokensGo rest (c :: acc)
      else if acc.isEmpty then wordTokensGo rest []
      else String.mk acc.reverse :: wordTokensGo rest []

/-- `re.findall(r"\w+", s)`: the maximal word-character runs of `s`. -/
def wordTokens (s : String) : List String := wordTokensGo s.data []

/-- The text bag of one project:
`str(name) + " " + str(description) + " " + " ".join(highlights)`, lowered. -/
def projContent (p : FProject) : String :=
  pyLower (p.name ++ " " ++ p.description ++ " " ++ String.intercalate " " p.highlights)

/-- Lexical-overlap score of a project against the job-description token
set: `sum(1 for token in p_tokens if token in jd_tokens)`. -/
def projScore (jdTokens : List String) (p : FProject) : Nat :=
  (wordTokens (projContent p)).countP (fun t => jdTokens.contains t)

/-- The job-description token set (`set(re.findall(r"\w+", jd.lower()))`);
kept as a list, queried only through `contains`. -/
def jdTokenSet (jd_text : String) : List String := wordTokens (pyLower jd_text)

/-- Stable insertion into a list sorted by non-increasing score: the new
element goes before the first element whose score is `≤` its own. -/
def insertScored (x : Nat × FProject) : List (Nat × FProject) → List (Nat × FProject)
  | [] => [x]
  | y :: ys => if y.1 ≤ x.1 then x :: y :: ys else y :: insertScored x ys

/-- Stable sort by non-increasing score.  `list.sort(key=lambda x: x[0],
reverse=True)` is a stable descending sort; any stable descending sort is
extensionally the same permutation, and stability and sortedness are proved
below, pinning the behaviour. -/
def sortScored : List (Nat × FProject) → List (Nat × FProject)
  | [] => []
  | x :: xs => insertScored x (sortScored xs)

/-- `pre_filter.pre_filter_projects`: score each project by bag-of-words
overlap with the job description, sort descending (stably) and keep the
first `candidate_pool_size`. -/
def pre_filter_projects (all_projects : List FProject) (jd_text : String)
    (candidate_pool_size : Nat) : List FProject :=
  if all_projects = [] then []
  else
    let jd_tokens := jdTokenSet jd_text
    let scored := all_projects.map (fun p => (projScore jd_tokens p, p))
    ((sortScored scored).take candidate_pool_size).map Prod.snd


/-! ## `tools/validators/archetype.py` -/

/-- The `{"valid": bool, "errors": [...]}` result shape. -/
structure VErrors where
  valid : Bool
  errors : List String
deriving DecidableEq

/-- One element of the parsed archetype list: either a string or some other
JSON value, carried with the string `str(type(x))` would print for it. -/
inductive ArchElem where
  | str (s : String)
  | nonStr (typeRepr : String)
deriving DecidableEq

/-- The parsed archetype value handed to the validator: a list, or a
non-list value (the `isinstance(archetypes, list)` guard). -/
inductive ArchInput where
  | list (xs : List ArchElem)
  | nonList
deriving DecidableEq

/-- Count-mismatch message of `validate_archetypes`. -/
def archCountMsg (expected got : Nat) : String :=
  "Expected exactly " ++ toString expected ++ " archetypes, got " ++ toString got

/-- Non-string-element message of `validate_archetypes`. -/
def archNonStrMsg (i : Nat) (typeRepr : String) : String :=
  "Archetype at index " ++ toString i ++ " must be a string, got " ++ typeRepr

/-- Unknown-archetype message of `validate_archetypes`. -/
def archInvalidMsg (a : String) (i : Nat) (allowed : List String) : String :=
  "Invalid archetype " ++ sQuote ++ a ++ sQuote ++ " at index " ++ toString i ++
    ". Choose only from: " ++ pyReprList allowed

/-- The per-element errors of the `validate_archetypes` loop, in index
order. -/
def archElemErrors (allowed : List String) (xs : List ArchElem) : List String :=
  xs.enum.flatMap (fun p =>
    match p.2 with
    | ArchElem.nonStr t => [archNonStrMsg p.1 t]
    | ArchElem.str a =>
        if allowed.contains a then [] else [archInvalidMsg a p.1 allowed])

/-- `archetype.validate_archetypes`: list-shape guard, count check recorded
as an ordinary violation, then per-element membership checks. -/
def validate_archetypes (archetypes : ArchInput) (allowed_archetypes : List String)
    (expected_count : Nat) : VErrors :=
  match archetypes with
  | ArchInput.nonList => { valid := false, errors := ["Archetypes must be a list"] }
  | ArchInput.list xs =>
      let countErrs :=
        if xs.length = expected_count then []
        else [archCountMsg expected_count xs.length]
      let errors := countErrs ++ archElemErrors allowed_archetypes xs
      { valid := errors.isEmpty, errors := errors }


/-! ## `tools/validators/format.py`

Configured regex patterns come from an external YAML file; each is modelled
as its pattern text paired with its compiled matcher (`String → Bool`,
holding exactly when `re.search` finds a match).  Numeric thresholds are
`Option Nat`, `none` for an absent key; where the source tests the value
for truthiness a configured `0` behaves like an absent key and is also
modelled as `none`.  A missing section entry and an empty one are the same
default structure, as `rules.get(section, {})` makes them. -/

/-- Rules for `professional_summary`. -/
structure SummaryRules where
  min_lines : Option Nat := none
  max_lines : Option Nat := none
  forbidden_patterns : List (String × (String → Bool)) := []

/-- Rules for `education`. -/
structure EducationRules where
  degree_line_pattern : Option (String × (String → Bool)) := none

/-- Rules for `skills`. -/
structure SkillsRules where
  category_line_pattern : Option (String × (String → Bool)) := none

/-- Rules for `projects`.  `max_bullets_per_project` is read with
`dict.get(key, 10)`: the default applies whenever the key is absent. -/
structure ProjectsRules where
  min_projects : Option Nat := none
  max_bullets_per_project : Option Nat := none

/-- Rules for `experience` (`max_bullets_per_role` read with default 5). -/
structure ExperienceRules where
  max_bullets_per_role : Option Nat := none

/-- Rules for `certifications` (only the truthiness of `bullet_pattern` is
ever used by the source). -/
structure CertificationsRules where
  bullet_pattern : Option String := none

/-- Rules for `cover_letter`. -/
structure CoverLetterRules where
  min_words : Option Nat := none
  max_words : Option Nat := none
  min_paragraphs : Option Nat := none

/-- The whole validation-rules configuration. -/
structure ValidationRules where
  professional_summary : SummaryRules := {}
  education : EducationRules := {}
  skills : SkillsRules := {}
  projects : ProjectsRules := {}
  experience : ExperienceRules := {}
  certifications : CertificationsRules := {}
  cover_letter : CoverLetterRules := {}

/-- Python truthiness of an optional numeric threshold: present and
non-zero. -/
def optTruthy (o : Option Nat) : Option Nat :=
  match o with
  | some n => if n = 0 then none else some n
  | none => none

/-- `_validate_professional_summary`: line-count window plus forbidden
patterns; note there is no empty-text early return in this one. -/
def validateProfessionalSummary (text : String) (r : SummaryRules) : List String :=
  let lines := ((pySplitlines text).map pyStrip).filter (fun l => l ≠ "")
  (match optTruthy r.min_lines with
   | some n =>
       if lines.length < n then
         ["Summary should have at least " ++ toString n ++ " lines, got " ++
           toString lines.length]
       else []
   | none => []) ++
  (match optTruthy r.max_lines with
   | some n =>
       if lines.length > n then
         ["Summary should have at most " ++ toString n ++ " lines, got " ++
           toString lines.length]
       else []
   | none => []) ++
  (r.forbidden_patterns.filterMap (fun pat =>
    if pat.2 text then some ("Forbidden pattern found: " ++ pat.1) else none))

/-- `_validate_education`. -/
def validateEducation (text : String) (r : EducationRules) : List String :=
  if pyStrip text = "" then []
  else
    match r.degree_line_pattern with
    | some pat =>
        if pat.2 text then []
        else ["Education must include degree lines in format: **Degree** — Institution, Dates"]
    | none => []

/-- `_validate_skills`: the configured category pattern must match whenever
bold markers appear at all. -/
def validateSkills (text : String) (r : SkillsRules) : List String :=
  if pyStrip text = "" then []
  else
    match r.category_line_pattern with
    | some pat =>
        if !(pat.2 text) && pyIn "**" text then
          ["Skills should use **Category:** skill, skill format"]
        else []
    | none => []

/-- Does the regex `\*\*[^*]+\*\*` match at the head of this character
list?  (Two stars, at least one non-star, two stars.) -/
def matchesBoldAt : List Char → Bool
  | '*' :: '*' :: rest =>
      match rest with
      | [] => false
      | c :: _ =>
          if c = '*' then false
          else
            match rest.dropWhile (fun d => d ≠ '*') with
            | '*' :: '*' :: _ => true
            | _ => false
  | _ => false

/-- Worker for `splitAtBold`: `re.split(r"(?=\*\*[^*]+\*\*)", text)`.  The
accumulated piece is emitted at every position where the lookahead matches
(including an empty first piece for a match at position 0), the matching
position itself starting the next piece. -/
def splitAtBoldGo : List Char → List Char → List String
  | [], acc => [String.mk acc.reverse]
  | c :: rest, acc =>
      if matchesBoldAt (c :: rest) then
        String.mk acc.reverse :: splitAtBoldGo rest [c]
      else splitAtBoldGo rest (c :: acc)

/-- `re.split(r"(?=\*\*[^*]+\*\*)", text)`. -/
def splitAtBold (text : String) : List String := splitAtBoldGo text.data []

/-- `len(re.findall(r"^- ", block, re.MULTILINE))`: the number of lines of
`block` beginning with a bullet marker. -/
def countBulletStarts (block : String) : Nat :=
  ((pySplitChar '\n' block).filter (fun l => pyStartsWith l "- ")).length

/-- `_validate_projects`: block count by bold headers, then a per-block
bullet cap read with default 10. -/
def validateProjects (text : String) (r : ProjectsRules) : List String :=
  if pyStrip text = "" then []
  else
    let blocks := splitAtBold text
    let project_headers := blocks.filter (fun b => matchesBoldAt (pyStrip b).data)
    (match optTruthy r.min_projects with
     | some n =>
         if project_headers.length < n then
           ["Projects should have at least " ++ toString n ++
             " distinct project blocks (each starting with **Project Name**), found " ++
             toString project_headers.length]
         else []
     | none => []) ++
    blocks.flatMap (fun block =>
      let b := pyStrip block
      if b = "" || !(pyStartsWith b "**") then []
      else
        let bullet_count := countBulletStarts b
        let max_bullets := r.max_bullets_per_project.getD 10
        if bullet_count > max_bullets then
          ["A single project block has " ++ toString bullet_count ++
            " bullets; max " ++ toString max_bullets ++ " per project. Possible merged projects."]
        else [])

/-- The role-overflow message of `_validate_experience`. -/
def expRoleMsg (n maxB : Nat) : String :=
  "Experience role has " ++ toString n ++ " bullets; max " ++ toString maxB ++ " per role"

/-- The line scan of `_validate_experience`: a running bullet counter that
is reset (flushing an error if it overflowed) on any non-empty line not
starting with a dash, and flushed once more at the end. -/
def validateExperienceGo (maxB : Nat) : List String → Nat → List String
  | [], n => if n > maxB then [expRoleMsg n maxB] else []
  | line :: rest, n =>
      let ls := pyStrip line
      if pyStartsWith ls "- " then validateExperienceGo maxB rest (n + 1)
      else if ls ≠ "" && !(pyStartsWith ls "-") then
        (if n > maxB then [expRoleMsg n maxB] else []) ++ validateExperienceGo maxB rest 0
      else validateExperienceGo maxB rest n

/-- `_validate_experience` (`max_bullets_per_role` read with default 5). -/
def validateExperience (text : String) (r : ExperienceRules) : List String :=
  if pyStrip text = "" then []
  else validateExperienceGo (r.max_bullets_per_role.getD 5) (pySplitlines text) 0

/-- Does `[^)]+\)` match here: a non-`)` character, then a later `)`. -/
def parenOk : List Char → Bool
  | [] => false
  | c :: rest => c ≠ ')' && rest.contains ')'

/-- After a dash, does `.*\([^)]+\)` match: scanning without crossing a
newline (`.` does not match `\n`), find a `(` whose tail satisfies
`[^)]+\)`. -/
def dashTailOk : List Char → Bool
  | [] => false
  | c :: rest =>
      if c = '\n' then false
      else if c = '(' && parenOk rest then true
      else dashTailOk rest

/-- A dash character of the class `[—–-]`. -/
def isCertDash (c : Char) : Bool := c = '—' || c = '–' || c = '-'

/-- `re.search(r"[—–-].*\([^)]+\)", text)`: some dash is followed, on the
same line, by a parenthesised non-empty group. -/
def certSearch : List Char → Bool
  | [] => false
  | c :: rest => (isCertDash c && dashTailOk rest) || certSearch rest

/-- `_validate_certifications`: only the *truthiness* of the configured
`bullet_pattern` is used; `re.findall(r"^- ", text)` without `MULTILINE`
matches only at the start of the string. -/
def validateCertifications (text : String) (r : CertificationsRules) : List String :=
  if pyStrip text = "" then []
  else
    match r.bullet_pattern with
    | some pat =>
        if pat = "" then []
        else if pyStartsWith text "- " && !(certSearch text.data) then
          ["Certifications should use format: - Name — Issuer (Year)"]
        else []
    | none => []

/-- Worker splitting on the two-character separator `"\n\n"`
(Python `text.split("\n\n")`). -/
def splitNlNlGo : List Char → List Char → List String
  | [], acc => [String.mk acc.reverse]
  | '\n' :: '\n' :: rest, acc => String.mk acc.reverse :: splitNlNlGo rest []
  | c :: rest, acc => splitNlNlGo rest (c :: acc)

/-- `text.split("\n\n")`. -/
def splitNlNl (text : String) : List String := splitNlNlGo text.data []

/-- `_validate_cover_letter`: word-count window and minimum paragraph
count. -/
def validateCoverLetter (text : String) (r : CoverLetterRules) : List String :=
  if pyStrip text = "" then []
  else
    let words := (pySplitWs text).length
    (match optTruthy r.min_words with
     | some n =>
         if words < n then
           ["Cover letter should have at least " ++ toString n ++ " words, got " ++
             toString words]
         else []
     | none => []) ++
    (match optTruthy r.max_words with
     | some n =>
         if words > n then
           ["Cover letter should have at most " ++ toString n ++ " words, got " ++
             toString words]
         else []
     | none => []) ++
    (match optTruthy r.min_paragraphs with
     | some n =>
         let paragraphs := (splitNlNl text).filter (fun p => pyStrip p ≠ "")
         if paragraphs.length < n then
           ["Cover letter should have at least " ++ toString n ++ " paragraphs, got " ++
             toString paragraphs.length]
         else []
     | none => [])

/-- `format.validate_section_format`: strip the text, dispatch on the
section name; unknown sections skip validation. -/
def validate_section_format (section_name : String) (text : String)
    (rules : ValidationRules) : VErrors :=
  let text := pyStrip text
  let errors :=
    if section_name = "professional_summary" then
      validateProfessionalSummary text rules.professional_summary
    else if section_name = "education" then validateEducation text rules.education
    else if section_name = "skills" then validateSkills text rules.skills
    else if section_name = "projects" then validateProjects text rules.projects
    else if section_name = "experience" then validateExperience text rules.experience
    else if section_name = "certifications" then
      validateCertifications text rules.certifications
    else if section_name = "cover_letter" then validateCoverLetter text rules.cover_letter
    else []
  if section_name = "professional_summary" || section_name = "education" ||
      section_name = "skills" || section_name = "projects" ||
      section_name = "experience" || section_name = "certifications" ||
      section_name = "cover_letter" then
    { valid := errors.isEmpty, errors := errors }
  else { valid := true, errors := [] }

/-! ## `tools/validators/fact_check.py` -/

/-- The `Violation` dataclass of `fact_check.py`. -/
structure FCViolation where
  claim : String
  source : String
  expected : String
deriving DecidableEq

/-- The `{"passed", "violations", "feedback"}` result of `fact_check`. -/
structure FCResult where
  passed : Bool
  violations : List FCViolation
  feedback : String
deriving DecidableEq

/-- `_extract_projects_from_profile`, reduced to the only data the
`projects` branch consumes: the normalized names of the named projects
(the dict keys; key multiplicity is irrelevant to the `any` and
non-emptiness tests performed on them). -/
def factProjectNames (profile : PyProfile) : List String :=
  profile.projects.filterMap (fun p =>
    if p.name ≠ "" then some (pyNormalize p.name) else none)

/-- `_extract_cert_names_from_profile`: the normalized certification names
(a set in the source; deduplicated here). -/
def factCertNames (profile : PyProfile) : List String :=
  pyDedup (profile.certifications.map (fun c => pyNormalize c.name))

/-- The `companies` set of `_extract_experience_from_profile`: normalized,
non-empty, deduplicated. -/
def factCompanies (profile : PyProfile) : List String :=
  pyDedup (profile.experience.filterMap (fun e =>
    let c := pyNormalize e.company
    if c = "" then none else some c))

/-- The `positions` set of `_extract_experience_from_profile`. -/
def factPositions (profile : PyProfile) : List String :=
  pyDedup (profile.experience.filterMap (fun e =>
    let p := pyNormalize e.position
    if p = "" then none else some p))

/-- Try the cert-line regex `-\s*([^—–-]+?)\s*[—–-]\s*[^(]+\([^)]+\)` at the
head of the list, returning the captured group-1 text and the characters
after the match.  The lazy group together with the surrounding `\s*`
captures the text between the leading `-` and the first dash character,
trimmed — except that when that text is all whitespace, backtracking leaves
exactly the last whitespace character in the group. -/
def tryCertAt : List Char → Option (String × List Char)
  | '-' :: rest =>
      let pre := rest.takeWhile (fun c => !(isCertDash c))
      match rest.dropWhile (fun c => !(isCertDash c)) with
      | [] => none
      | _dash :: after =>
          let group :=
            if pyStripList pre ≠ [] then some (String.mk (pyStripList pre))
            else
              match pre.getLast? with
              | some w => some (String.mk [w])
              | none => none
          match group with
          | none => none
          | some g =>
              let beforeParen := after.takeWhile (fun c => c ≠ '(')
              match after.dropWhile (fun c => c ≠ '(') with
              | '(' :: afterParen =>
                  if beforeParen.length = 0 then none
                  else
                    let inner := afterParen.takeWhile (fun c => c ≠ ')')
                    match afterParen.dropWhile (fun c => c ≠ ')') with
                    | ')' :: remainder =>
                        if inner.length = 0 then none else some (g, remainder)
                    | _ => none
              | _ => none
  | _ => none

/-- `re.findall` with the cert-line regex: scan left to right, resuming
after each match (fuelled by the list length; each step consumes at least
one character, so the fuel never runs out on the real argument). -/
def findCertLines : Nat → List Char → List String
  | 0, _ => []
  | _ + 1, [] => []
  | fuel + 1, c :: rest =>
      match tryCertAt (c :: rest) with
      | some (g, remainder) => g :: findCertLines fuel remainder
      | none => findCertLines fuel rest

/-- The `certifications` branch of `fact_check`. -/
def factCheckCerts (text : String) (profile : PyProfile) : List FCViolation :=
  let cert_names := factCertNames profile
  (findCertLines text.data.length text.data).filterMap (fun line =>
    let name_norm := pyNormalize (pyStrip line)
    let found := cert_names.any (fun cn => pyIn name_norm cn || pyIn cn name_norm)
    if !found && cert_names ≠ [] then
      some { claim := pyStrip line, source := "certification name",
             expected := "Must match a certification from profile" }
    else none)

/-- Try `\*\*([^*]+)\*\*` at the head of the list, returning the capture
and the characters after the closing stars. -/
def tryBoldAt : List Char → Option (String × List Char)
  | '*' :: '*' :: rest =>
      let g := rest.takeWhile (fun c => c ≠ '*')
      if g.isEmpty then none
      else
        match rest.dropWhile (fun c => c ≠ '*') with
        | '*' :: '*' :: remainder => some (String.mk g, remainder)
        | _ => none
  | _ => none

/-- `re.findall(r"\*\*([^*]+)\*\*", text)`: all bold-delimited captures,
scanning left to right and resuming after each match (fuelled as above). -/
def findAllBold : Nat → List Char → List String
  | 0, _ => []
  | _ + 1, [] => []
  | fuel + 1, c :: rest =>
      match tryBoldAt (c :: rest) with
      | some (g, remainder) => g :: findAllBold fuel remainder
      | none => findAllBold fuel rest

/-- The `projects` branch of `fact_check`: every bold-delimited name must
two-way-substring-match some profile project name — but only when the
profile has at least one named project (`... and projects`). -/
def factCheckProjects (text : String) (profile : PyProfile) : List FCViolation :=
  let projects := factProjectNames profile
  (findAllBold text.data.length text.data).filterMap (fun name =>
    let name_norm := pyNormalize name
    if !(projects.any (fun pn => pyIn name_norm pn || pyIn pn name_norm)) &&
        projects ≠ [] then
      some { claim := name, source := "project name",
             expected := "Must match a project from profile" }
    else none)

/-- The company-missing violations of the `experience` branch: every
profile company must appear in the normalized text, verbatim or by its
first word. -/
def factCheckMissingCompanies (companies : List String) (text_norm : String) :
    List FCViolation :=
  companies.filterMap (fun company =>
    if company = "" then none
    else if pyIn company text_norm then none
    else
      let first_word := (pySplitWs company).headD ""
      if first_word ≠ "" && pyIn first_word text_norm then none
      else
        some { claim := "Company " ++ sQuote ++ company ++ sQuote ++ " missing",
               source := "experience",
               expected := "All companies from profile must appear exactly" })

/-- The position-missing violations of the `experience` branch (positions
shorter than 4 characters are skipped). -/
def factCheckMissingPositions (positions : List String) (text_norm : String) :
    List FCViolation :=
  positions.filterMap (fun pos =>
    if pos = "" || pos.length < 4 then none
    else if pyIn pos text_norm then none
    else
      let first_word := (pySplitWs pos).headD ""
      if first_word ≠ "" && pyIn first_word text_norm then none
      else
        some { claim := "Position " ++ sQuote ++ pos ++ sQuote ++ " missing or altered",
               source := "experience",
               expected := "Use exact position titles from profile" })

/-- Search `\*\*([^*]+)\*\*\s*,\s*([^,]+)` in a line and return capture 2:
the first bold header followed (after optional whitespace) by a comma and a
non-empty run of non-comma characters.  Scanning tries each start position
in turn, as `re.search` does. -/
def searchHeaderCompany : List Char → Option String
  | [] => none
  | c :: rest =>
      match
        (match c :: rest with
         | '*' :: '*' :: r1 =>
             let g1 := r1.takeWhile (fun d => d ≠ '*')
             if g1.isEmpty then none
             else
               match r1.dropWhile (fun d => d ≠ '*') with
               | '*' :: '*' :: r2 =>
                   match (r2.dropWhile isPySpace) with
                   | ',' :: r3 =>
                       let g2 := (r3.dropWhile isPySpace).takeWhile (fun d => d ≠ ',')
                       if g2.isEmpty then none else some (String.mk g2)
                   | _ => none
               | _ => none
         | _ => none) with
      | some g => some g
      | none => searchHeaderCompany rest

/-- The fabricated-company violations of the `experience` branch: for every
bold-headed block, the company parsed from its first line must match some
profile company. -/
def factCheckFabricated (companies : List String) (text : String) : List FCViolation :=
  (splitAtBold text).filterMap (fun block =>
    let b := pyStrip block
    if b = "" || !(pyStartsWith b "**") then none
    else
      let first_line := (pySplitChar '\n' b).headD ""
      match searchHeaderCompany first_line.data with
      | none => none
      | some g2 =>
          let company_in_output := pyNormalize (pyStrip g2)
          if company_in_output ≠ "" &&
              !(companies.any (fun c => pyIn company_in_output c || pyIn c company_in_output))
          then
            some { claim := "Company " ++ sQuote ++ pyStrip g2 ++ sQuote ++ " not in profile",
                   source := "experience",
                   expected := "Use ONLY companies from profile" }
          else none)

/-- The `experience` branch of `fact_check`. -/
def factCheckExperience (text : String) (profile : PyProfile) : List FCViolation :=
  let text_norm := pyNormalize text
  factCheckMissingCompanies (factCompanies profile) text_norm ++
    factCheckMissingPositions (factPositions profile) text_norm ++
    factCheckFabricated (factCompanies profile) text

/-- `fact_check.fact_check`: cross-reference the generated text against the
profile.  The `education` branch of the source extracts data but emits no
violations (every check body is `pass`), so it contributes nothing. -/
def fact_check (section_name : String) (text : String) (profile : PyProfile) : FCResult :=
  let violations :=
    if section_name = "education" then []
    else if section_name = "certifications" then factCheckCerts text profile
    else if section_name = "projects" then factCheckProjects text profile
    else if section_name = "experience" then factCheckExperience text profile
    else []
  let passed := violations.length = 0
  let feedback :=
    if passed then ""
    else
      "VALIDATION FAILED: " ++
        String.intercalate "; "
          ((violations.take 5).map (fun v => v.claim ++ " (" ++ v.expected ++ ")"))
  { passed := passed, violations := violations, feedback := feedback }


/-! ## `tools/validators/hallucination.py` -/

/-- The `{"passed", "violations", "feedback"}` result of
`detect_hallucinations` (violations are plain strings here). -/
structure HalResult where
  passed : Bool
  violations : List String
  feedback : String
deriving DecidableEq

/-- Lexicographic comparison of character lists (Python string `<=`). -/
def lexLe : List Char → List Char → Bool
  | [], _ => true
  | _ :: _, [] => false
  | a :: as, b :: bs => if a < b then true else if b < a then false else lexLe as bs

/-- Stable insertion for `sortStrings`. -/
def insertString (x : String) : List String → List String
  | [] => [x]
  | y :: ys => if lexLe x.data y.data then x :: y :: ys else y :: insertString x ys

/-- Ascending sort of strings (Python `sorted`). -/
def sortStrings : List String → List String
  | [] => []
  | x :: xs => insertString x (sortStrings xs)

/-- `hallucination.flatten_skills`:
`sorted(list(set(str(s).strip() for s in flat if s)))` over the
concatenated bucket items. -/
def flatten_skills (skills_buckets : List (String × List String)) : List String :=
  sortStrings (pyDedup
    (((skills_buckets.map Prod.snd).flatten.filter (fun s => s ≠ "")).map pyStrip))

/-- `_build_allowed_skills`: normalized union of the flattened buckets, the
soft skills, and every list under the flat `skills` mapping.  The source
builds a `set`; only (substring-) membership is consumed, so a plain list
suffices. -/
def buildAllowedSkills (profile : PyProfile) : List String :=
  (flatten_skills profile.skills_buckets).map pyNormalize ++
    profile.soft_skills.map pyNormalize ++
    ((profile.skills.map Prod.snd).flatten.map pyNormalize)

/-- Word character in the sense of the regex `\b` boundary (`\w`). -/
def isRegexWordChar (c : Char) : Bool := c.isAlphanum || c = '_'

/-- Is there a `\b` boundary between two adjacent characters (`none` for
the ends of the string)? -/
def boundaryBetween (a b : Option Char) : Bool :=
  (match a with | some c => isRegexWordChar c | none => false) !=
    (match b with | some c => isRegexWordChar c | none => false)

/-- Longest non-empty prefix of a *reversed* run whose final character
forms a `\b` boundary with its successor — the backtracking of a trailing
`\b` after a greedy character class. -/
def trimToBoundaryRev : List Char → Option Char → Option (List Char)
  | [], _ => none
  | c :: rest, next =>
      if boundaryBetween (some c) next then some (c :: rest)
      else trimToBoundaryRev rest (some c)

/-- `re.findall` for a pattern `\b<first><class>*\b`: at each position with
a leading boundary and an admissible first character, take the greedy class
run and backtrack its end to a trailing boundary; on failure advance one
character; on success resume after the match.  Fuelled by the list length
(each step consumes at least one character). -/
def findRunsGo (firstCls restCls : Char → Bool) :
    Nat → Option Char → List Char → List String
  | 0, _, _ => []
  | _ + 1, _, [] => []
  | fuel + 1, prev, c :: rest =>
      if firstCls c && boundaryBetween prev (some c) then
        let runTail := rest.takeWhile restCls
        let afterRun := rest.dropWhile restCls
        match (trimToBoundaryRev (c :: runTail).reverse afterRun.head?).map List.reverse with
        | some m =>
            String.mk m ::
              findRunsGo firstCls restCls fuel m.getLast?
                ((runTail.drop (m.length - 1)) ++ afterRun)
        | none => findRunsGo firstCls restCls fuel (some c) rest
      else findRunsGo firstCls restCls fuel (some c) rest

/-- ASCII upper-case letter (`[A-Z]`). -/
def isUpperAscii (c : Char) : Bool := c.toNat ≥ 65 && c.toNat ≤ 90

/-- Character class `[a-zA-Z0-9+#]`. -/
def capTokenChars (c : Char) : Bool := c.isAlphanum || c = '+' || c = '#'

/-- Character class `[a-z0-9+]`. -/
def lowerTokenChars (c : Char) : Bool :=
  (c.toNat ≥ 97 && c.toNat ≤ 122) || c.isDigit || c = '+'

/-- `re.findall(r"\b[A-Z][a-zA-Z0-9+#]*\b", text)`. -/
def findCapTokens (text : String) : List String :=
  findRunsGo isUpperAscii capTokenChars text.data.length none text.data

/-- `re.findall(r"\b[a-z0-9+]+\b", content)`. -/
def findLowerTokens (content : String) : List String :=
  findRunsGo lowerTokenChars lowerTokenChars content.data.length none content.data

/-- `re.findall` for an alternation of fixed words `\b(w1|w2|…)\b` over
lower-cased text: at each boundary position the alternatives are tried in
order; the first one that is a prefix of the remaining text and ends at a
boundary matches. -/
def findAltsGo (alts : List String) : Nat → Option Char → List Char → List String
  | 0, _, _ => []
  | _ + 1, _, [] => []
  | fuel + 1, prev, c :: rest =>
      if boundaryBetween prev (some c) then
        match alts.find? (fun a =>
            a.data.isPrefixOf (c :: rest) &&
              boundaryBetween a.data.getLast? (((c :: rest).drop a.data.length).head?)) with
        | some a =>
            a :: findAltsGo alts fuel a.data.getLast? ((c :: rest).drop a.data.length)
        | none => findAltsGo alts fuel (some c) rest
      else findAltsGo alts fuel (some c) rest

/-- `re.findall` over alternation `alts`, fuelled by the text length. -/
def findAlts (alts : List String) (text : String) : List String :=
  findAltsGo alts text.data.length none text.data

/-- The `tech_pattern` alternatives of `_build_allowed_tools_from_projects`
(lower-cased: the pattern is compiled with `IGNORECASE` and applied to
lower-cased content, so matches surface in lower case). -/
def techPatternAlts : List String :=
  ["python", "c++", "sql", "matlab", "pandas", "numpy", "tensorflow", "pytorch",
   "yolov2", "u-net", "kitti", "nuscenes", "kalman", "lidar", "solidworks", "ansys",
   "docker", "ros2", "django", "plotly", "dash", "tensorboard", "matplotlib",
   "scikit-learn", "excel", "sap", "windchill", "dremio"]

/-- The lower-case tech terms of `_extract_tech_mentions`. -/
def techTermAlts : List String :=
  ["python", "c++", "sql", "matlab", "pandas", "numpy", "tensorflow", "pytorch",
   "yolov2", "u-net", "kitti", "nuscenes", "solidworks", "ansys", "docker", "ros2",
   "django", "plotly", "dash", "tensorboard", "matplotlib", "scikit-learn", "excel"]

/-- `_extract_tech_mentions`: capitalized tokens united with lower-case
tech terms.  The source forms a `set`; it is iterated only to emit at most
one violation per distinct mention, so first-occurrence order stands in
for the unspecified set order. -/
def extractTechMentions (text : String) : List String :=
  pyDedup (findCapTokens text ++ findAlts techTermAlts (pyLower text))

/-- The allowed token pool of the `projects` branch: for every project, the
`\b[a-z0-9+]+\b` tokens and `tech_pattern` matches of its description and
highlights, united with the normalized flattened skill buckets.  (The
source builds this as a dict of per-project sets and then flattens it;
only membership is consumed.) -/
def allProjectTokens (profile : PyProfile) : List String :=
  profile.projects.flatMap (fun p =>
    let content := pyLower (p.description ++ " " ++ String.intercalate " " p.highlights)
    findLowerTokens content ++ findAlts techPatternAlts content) ++
    (flatten_skills profile.skills_buckets).map pyNormalize

/-- The whitelist of common words in the `projects` branch. -/
def halWhitelist : List String :=
  ["a", "i", "the", "and", "or", "in", "on", "to", "of", "for"]

/-- Text after the first colon: `line.split(":", 1)[1]`. -/
def afterFirstColon (line : String) : String :=
  String.mk ((line.data.dropWhile (fun c => c ≠ ':')).drop 1)

/-- The violations one line contributes in the `skills` branch: for a line
containing a colon, every comma-separated item after the first colon whose
normalized form is longer than 2 characters must two-way-substring-match
some allowed entry. -/
def skillsLineViolations (allowed : List String) (line : String) : List String :=
  if pyIn ":" line then
    (pySplitChar ',' (afterFirstColon line)).filterMap (fun part =>
      let skill := pyNormalize (pyStrip part)
      if skill ≠ "" && skill.length > 2 then
        if allowed.any (fun a => pyIn skill a || pyIn a skill) then none
        else some ("Skill not in profile: " ++ sQuote ++ pyStrip part ++ sQuote)
      else none)
  else []

/-- The `skills` branch of `detect_hallucinations`. -/
def halSkillsViolations (profile : PyProfile) (text : String) : List String :=
  (pySplitlines text).flatMap (skillsLineViolations (buildAllowedSkills profile))

/-- The `projects` branch of `detect_hallucinations`: a mention outside the
project token pool is flagged only when it matches the hard-coded denylist. -/
def halProjectsViolations (profile : PyProfile) (text : String) : List String :=
  let pool := allProjectTokens profile
  (extractTechMentions text).filterMap (fun m =>
    let mn := pyNormalize m
    if halWhitelist.contains mn then none
    else if pool.contains mn then none
    else if ["pyautogui", "abaqus", "ls-dyna", "power bi"].any (fun x => pyIn x mn) then
      some ("Tool/tech not in profile: " ++ sQuote ++ m ++ sQuote)
    else none)

/-- The `experience` branch of `detect_hallucinations`. -/
def halExperienceViolations (profile : PyProfile) (text : String) : List String :=
  let allowed := buildAllowedSkills profile
  (extractTechMentions text).filterMap (fun m =>
    let mn := pyNormalize m
    if allowed.contains mn then none
    else if mn.length < 4 then none
    else if ["pyautogui", "abaqus", "power bi", "powerbi"].any (fun x => pyIn x mn) then
      some ("Tool not in profile: " ++ sQuote ++ m ++ sQuote)
    else none)

/-- `hallucination.detect_hallucinations`. -/
def detect_hallucinations (section_name : String) (text : String)
    (profile : PyProfile) : HalResult :=
  if pyStrip text = "" then { passed := true, violations := [], feedback := "" }
  else
    let violations :=
      if section_name = "skills" then halSkillsViolations profile text
      else if section_name = "projects" then halProjectsViolations profile text
      else if section_name = "experience" then halExperienceViolations profile text
      else []
    { passed := violations.isEmpty,
      violations := violations,
      feedback :=
        if violations.isEmpty then ""
        else
          "VALIDATION FAILED: The following are not in your profile. " ++
            "Remove or replace with factual alternatives: " ++
            String.intercalate "; " (violations.take 5) }

/-! ## `tools/validators/length.py` -/

/-- Replace `!` and `?` by `.` (`text.replace("!", ".").replace("?", ".")`). -/
def unifyTerminators (s : String) : String :=
  String.mk (s.data.map (fun c => if c = '!' || c = '?' then '.' else c))

/-- `length.validate_length`: word-count and sentence-count windows; bounds
are checked with `is not None`, so a configured `0` is still checked. -/
def validate_length (section_name : String) (text : String)
    (min_sentences max_sentences min_words max_words : Option Nat) : VErrors :=
  let text := pyStrip text
  let wordErrs :=
    if min_words.isSome || max_words.isSome then
      let words := (pySplitWs text).length
      (match min_words with
       | some n =>
           if words < n then
             [section_name ++ ": expected at least " ++ toString n ++ " words, got " ++
               toString words]
           else []
       | none => []) ++
      (match max_words with
       | some n =>
           if words > n then
             [section_name ++ ": expected at most " ++ toString n ++ " words, got " ++
               toString words]
           else []
       | none => [])
    else []
  let sentErrs :=
    if min_sentences.isSome || max_sentences.isSome then
      let sentences :=
        ((pySplitChar '.' (unifyTerminators text)).filter (fun s => pyStrip s ≠ "")).length
      (match min_sentences with
       | some n =>
           if sentences < n then
             [section_name ++ ": expected at least " ++ toString n ++ " sentences, got " ++
               toString sentences]
           else []
       | none => []) ++
      (match max_sentences with
       | some n =>
           if sentences > n then
             [section_name ++ ": expected at most " ++ toString n ++ " sentences, got " ++
               toString sentences]
           else []
       | none => [])
    else []
  let errors := wordErrs ++ sentErrs
  { valid := errors.isEmpty, errors := errors }

/-! ## `agents/generators.py`

The prompt-template configuration and `yaml.dump` are external
collaborators; they enter as the fields of `GenEnv`.  The LLM client is the
`gen : String → String → String` parameter (prompt, label ↦ response). -/

/-- External environment of the generators. -/
structure GenEnv where
  prompts : List (String × String)
  yamlDumpProjects : List FProject → String
  yamlDumpCerts : List CertEntry → String
  yamlDumpExp : List ExpEntry → String

/-- `cv_core.render_prompt`: look the template up by name and substitute
each `<<KEY>>` placeholder by `str(value)`, then strip. -/
def render_prompt (env : GenEnv) (template_name : String)
    (kwargs : List (String × String)) : String :=
  pyStrip (kwargs.foldl
    (fun t kv => t.replace ("<<" ++ kv.1 ++ ">>") kv.2)
    ((env.prompts.lookup template_name).getD ""))

/-- `generators.generate_smart_projects`: short-circuit on an empty project
list, otherwise pre-filter and call the generator. -/
def generate_smart_projects (env : GenEnv) (profile : PyProfile) (jd : String)
    (_archetypes : List String) (gen : String → String → String)
    (feedback : Option String) : String :=
  if profile.projects = [] then ""
  else
    let candidates := pre_filter_projects profile.projects jd CANDIDATE_POOL_SIZE
    let prompt := render_prompt env "smart_projects"
      [("MAX_PROJECTS", toString MAX_PROJECTS_TO_SHOW),
       ("JD_EXCERPT", pyTake 1000 jd),
       ("CANDIDATE_PROJECTS_YAML", env.yamlDumpProjects candidates)]
    let prompt :=
      match feedback with
      | some fb => prompt ++ "\n\n" ++ fb
      | none => prompt
    gen prompt "Smart Projects Section"

/-- `generators.generate_smart_certifications`: short-circuit on an empty
certification list. -/
def generate_smart_certifications (env : GenEnv) (profile : PyProfile) (jd : String)
    (archetypes : List String) (gen : String → String → String)
    (feedback : Option String) : String :=
  if profile.certifications = [] then ""
  else
    let prompt := render_prompt env "certifications"
      [("ARCHETYPES", pyReprList archetypes),
       ("JD_EXCERPT", pyTake 800 jd),
       ("CERTIFICATIONS_YAML", env.yamlDumpCerts profile.certifications)]
    let prompt :=
      match feedback with
      | some fb => prompt ++ "\n\n" ++ fb
      | none => prompt
    gen prompt "Smart Certifications Section"

/-- The experience prompt (shared between the code-faithful stage and the
spec-ordered comparison stage). -/
def expPrompt (env : GenEnv) (profile : PyProfile) (jd : String)
    (archetypes : List String) (feedback : Option String) : String :=
  let prompt := render_prompt env "experience"
    [("ARCHETYPES", pyReprList archetypes),
     ("JD_EXCERPT", pyTake 600 jd),
     ("EXPERIENCE_YAML", env.yamlDumpExp profile.experience)]
  match feedback with
  | some fb => prompt ++ "\n\n" ++ fb
  | none => prompt

/-- `generators.generate_experience`: build the prompt, call the generator,
and clamp the raw output with `enforce_bullet_limit` before returning. -/
def generate_experience (env : GenEnv) (profile : PyProfile) (jd : String)
    (archetypes : List String) (gen : String → String → String)
    (feedback : Option String) : String :=
  enforce_bullet_limit (gen (expPrompt env profile jd archetypes feedback) "Experience Section")
    MAX_BULLETS_PER_ROLE

/-! ## `agents/orchestrator.py` (stage wiring for the claims) -/

/-- Worker for `_normalize_spacing`: the two substitutions
`\n{2,} → \n\n` and single `\n → \n\n` compose to mapping every maximal
newline run to exactly two newlines. -/
def normSpacingGo : List Char → Bool → List Char
  | [], _ => []
  | c :: rest, inRun =>
      if c = '\n' then
        if inRun then normSpacingGo rest true
        else '\n' :: '\n' :: normSpacingGo rest true
      else c :: normSpacingGo rest false

/-- `orchestrator._normalize_spacing`. -/
def normalize_spacing (t : String) : String :=
  if t = "" then "" else pyStrip (String.mk (normSpacingGo t.data false))

/-- Adapter: a `{"valid", "errors"}` dictionary as seen by the retry
controller. -/
def vErrorsToPy (r : VErrors) : PyVResult :=
  { valid := some r.valid, errors := r.errors, passed := none, violations := [],
    feedback := "" }

/-- Python `str` of one `fact_check` violation dictionary, as the feedback
join would render it.  (The dictionaries are non-empty, hence truthy, and
their `str` is non-empty; the braces are code points 123/125.) -/
def fcViolationStr (v : FCViolation) : String :=
  String.singleton (Char.ofNat 123) ++
    pyReprStr "claim" ++ ": " ++ pyReprStr v.claim ++ ", " ++
    pyReprStr "source" ++ ": " ++ pyReprStr v.source ++ ", " ++
    pyReprStr "expected" ++ ": " ++ pyReprStr v.expected ++
    String.singleton (Char.ofNat 125)

/-- Adapter: a `fact_check` result as seen by the retry controller. -/
def fcToPy (r : FCResult) : PyVResult :=
  { valid := none, errors := [], passed := some r.passed,
    violations := r.violations.map fcViolationStr, feedback := r.feedback }

/-- Adapter: a `detect_hallucinations` result as seen by the retry
controller. -/
def halToPy (r : HalResult) : PyVResult :=
  { valid := none, errors := [], passed := some r.passed,
    violations := r.violations, feedback := r.feedback }

/-- `orchestrator._validators_for`, as wired in `run`. -/
def validatorsFor (sect : String) (rules : ValidationRules) (profile : PyProfile) :
    List (String → PyVResult) :=
  [fun txt => vErrorsToPy (validate_section_format sect txt rules)] ++
    (if sect = "education" || sect = "certifications" || sect = "projects" ||
        sect = "experience" then
      [fun txt => fcToPy (fact_check sect txt profile)]
    else []) ++
    (if sect = "projects" || sect = "experience" || sect = "skills" then
      [fun txt => halToPy (detect_hallucinations sect txt profile)]
    else []) ++
    (if sect = "cover_letter" then
      [fun txt => vErrorsToPy (validate_length sect txt none none (some 180) (some 350))]
    else [])

/-- Stage 5 of `orchestrator.run` (projects): the retry controller around
`generate_smart_projects` with the projects validator trio; the result pairs
the accepted text (before spacing normalization) with the call trace.
`rawGen i` is the LLM client at the controller's `i`-th invocation. -/
def projectsStage (env : GenEnv) (profile : PyProfile) (jd : String)
    (archetypes : List String) (rawGen : Nat → String → String → String)
    (rules : ValidationRules) (max_retries : Nat) :
    String × List (Option String × String) :=
  generateWithFeedback
    (fun i fb => generate_smart_projects env profile jd archetypes (rawGen i) fb)
    (validatorsFor "projects" rules profile) max_retries

/-- The `projects_md` value of `orchestrator.run`. -/
def projectsStageText (env : GenEnv) (profile : PyProfile) (jd : String)
    (archetypes : List String) (rawGen : Nat → String → String → String)
    (rules : ValidationRules) (max_retries : Nat) : String :=
  normalize_spacing (projectsStage env profile jd archetypes rawGen rules max_retries).1

/-- Stage 6 of `orchestrator.run` (experience), as the code wires it: the
clamp sits inside `generate_experience`, so every attempt's text is clamped
before the validators see it. -/
def experienceStage (env : GenEnv) (profile : PyProfile) (jd : String)
    (archetypes : List String) (rawGen : Nat → String → String → String)
    (rules : ValidationRules) (max_retries : Nat) :
    String × List (Option String × String) :=
  generateWithFeedback
    (fun i fb => generate_experience env profile jd archetypes (rawGen i) fb)
    (validatorsFor "experience" rules profile) max_retries

/-- The `experience_md` value of `orchestrator.run`. -/
def experienceStageText (env : GenEnv) (profile : PyProfile) (jd : String)
    (archetypes : List String) (rawGen : Nat → String → String → String)
    (rules : ValidationRules) (max_retries : Nat) : String :=
  normalize_spacing (experienceStage env profile jd archetypes rawGen rules max_retries).1

/-- Modelled from the spec: stage 6 with the ordering the specification
describes — "Retry-Controller-wrapped generation with the same validator
trio, followed by a hard bullet-count enforcement pass [which] runs
unconditionally after validation, as a final clamp".  Here the validators
see the raw generation output and the clamp is applied once, after the
controller returns.  Defined only to compare against `experienceStage`. -/
def experienceStageSpecOrder (env : GenEnv) (profile : PyProfile) (jd : String)
    (archetypes : List String) (rawGen : Nat → String → String → String)
    (rules : ValidationRules) (max_retries : Nat) :
    String × List (Option String × String) :=
  let r := generateWithFeedback
    (fun i fb => rawGen i (expPrompt env profile jd archetypes fb) "Experience Section")
    (validatorsFor "experience" rules profile) max_retries
  (enforce_bullet_limit r.1 MAX_BULLETS_PER_ROLE, r.2)

/-- Concrete input for the C4 counterexample: a well-sized list whose last
element is not a string (carrying the `str(type(...))` rendering a Python
`int` would produce). -/
def c4Input : ArchInput :=
  ArchInput.list [ArchElem.str "data_analytics", ArchElem.str "software_engineering",
    ArchElem.nonStr ("<class " ++ sQuote ++ "int" ++ sQuote ++ ">")]

/-- Rules for the C5 counterexample: `professional_summary` configured with
`min_lines: 3` and nothing else. -/
def c5SummaryRules : SummaryRules :=
  { min_lines := some 3, max_lines := none, forbidden_patterns := [] }

/-- The whole rule set of the C5 counterexample. -/
def c5Rules : ValidationRules :=
  { professional_summary := c5SummaryRules }

/-- Profile for the C6 counterexample/witness: one experience entry at
company "Acme Corp". -/
def c6Profile : PyProfile :=
  { emptyProfile with experience := [⟨"Acme Corp", "", "", "", ""⟩] }

/-- Profile for the C10 witness: a single unnamed project. -/
def c10Profile : PyProfile :=
  { emptyProfile with projects := [⟨"", "an orphan description", ["h1"]⟩] }

/-- A dummy external environment (no prompt templates, trivial dumpers). -/
def dummyEnv : GenEnv :=
  { prompts := [], yamlDumpProjects := fun _ => "", yamlDumpCerts := fun _ => "",
    yamlDumpExp := fun _ => "" }

/-- Profile for the C8 witness: one skills bucket holding "Python". -/
def c8Profile : PyProfile :=
  { emptyProfile with skills_buckets := [("Tools", ["Python"])] }

/-- Generate stub for the C9 counterexample: always the same role block
with six bullets (one more than the cap of 5). -/
def c9RawGen : Nat → String → String → String := fun _ _ _ =>
  "**Engineer**, Acme\n- a\n- b\n- c\n- d\n- e\n- f"

/-- Profile for the C9 counterexample: the company of the stubbed block. -/
def c9Profile : PyProfile :=
  { emptyProfile with experience := [⟨"Acme", "", "", "", ""⟩] }

/-! ## Supporting lemmas -/

/-- Unfolding: a passing attempt returns immediately. -/
theorem gwfGo_pass (gen : Nat → Option String → String) (vs : List (String → PyVResult))
    (fuel idx : Nat) (fb : Option String)
    (h : (runValidators vs (cleanText (gen idx fb))).1 = true) :
    gwfGo gen vs (fuel + 1) idx fb =
      (cleanText (gen idx fb), [(fb, cleanText (gen idx fb))]) := by
  match fuel with
  | 0 => simp [gwfGo, h]
  | m + 1 => simp [gwfGo, h]

/-- Unfolding: a failing attempt with no fuel left returns its own text. -/
theorem gwfGo_fail_last (gen : Nat → Option String → String) (vs : List (String → PyVResult))
    (idx : Nat) (fb : Option String)
    (h : (runValidators vs (cleanText (gen idx fb))).1 = false) :
    gwfGo gen vs 1 idx fb = (cleanText (gen idx fb), [(fb, cleanText (gen idx fb))]) := by
  simp [gwfGo, h]

/-- Unfolding: a failing attempt with fuel left recurses with the
synthesized feedback. -/
theorem gwfGo_fail_step (gen : Nat → Option String → String) (vs : List (String → PyVResult))
    (m idx : Nat) (fb : Option String)
    (h : (runValidators vs (cleanText (gen idx fb))).1 = false) :
    gwfGo gen vs (m + 2) idx fb =
      ((gwfGo gen vs (m + 1) (idx + 1)
          (some (attemptFeedback vs (cleanText (gen idx fb))))).1,
        (fb, cleanText (gen idx fb)) ::
          (gwfGo gen vs (m + 1) (idx + 1)
            (some (attemptFeedback vs (cleanText (gen idx fb))))).2) := by
  simp [gwfGo, h]

/-- Invariants of the retry loop: at least one and at most `fuel` calls are
made, the returned text is the text of the last call, and every traced call
records the cleaned output of `gen` at its call index and feedback. -/
theorem gwfGo_spec (gen : Nat → Option String → String)
    (vs : List (String → PyVResult)) :
    ∀ fuel idx fb, 1 ≤ fuel →
      1 ≤ (gwfGo gen vs fuel idx fb).2.length ∧
      (gwfGo gen vs fuel idx fb).2.length ≤ fuel ∧
      (∃ fb', (gwfGo gen vs fuel idx fb).2.getLast? =
        some (fb', (gwfGo gen vs fuel idx fb).1)) ∧
      (∀ j, (h : j < (gwfGo gen vs fuel idx fb).2.length) →
        ∃ fb', (gwfGo gen vs fuel idx fb).2.get ⟨j, h⟩ =
          (fb', cleanText (gen (idx + j) fb'))) := by
  intro fuel
  induction fuel with
  | zero => intro idx fb h; omega
  | succ n ih =>
    intro idx fb _
    by_cases hv : (runValidators vs (cleanText (gen idx fb))).1 = true
    · rw [gwfGo_pass gen vs n idx fb hv]
      refine ⟨by simp, by simp, ⟨fb, by simp⟩, ?_⟩
      intro j hj
      simp only [List.length_cons, List.length_nil] at hj
      interval_cases j
      exact ⟨fb, by simp⟩
    · have hv' : (runValidators vs (cleanText (gen idx fb))).1 = false := by
        simpa using hv
      match n with
      | 0 =>
        rw [gwfGo_fail_last gen vs idx fb hv']
        refine ⟨by simp, by simp, ⟨fb, by simp⟩, ?_⟩
        intro j hj
        simp only [List.length_cons, List.length_nil] at hj
        interval_cases j
        exact ⟨fb, by simp⟩
      | Nat.succ m =>
        have ihm := ih (idx + 1) (some (attemptFeedback vs (cleanText (gen idx fb))))
          (by omega)
        rw [gwfGo_fail_step gen vs m idx fb hv']
        obtain ⟨hlen1, hlen2, ⟨fbL, hL⟩, hEntries⟩ := ihm
        refine ⟨by simp, by simpa using Nat.add_le_add_right hlen2 1, ⟨fbL, ?_⟩, ?_⟩
        · rcases List.getLast?_eq_some_iff.1 hL with ⟨ys, hys⟩
          simp only [hys]
          rw [List.getLast?_eq_some_iff]
          exact ⟨(fb, cleanText (gen idx fb)) :: ys, by simp⟩
        · intro j hj
          match j with
          | 0 => exact ⟨fb, by simp⟩
          | Nat.succ k =>
            have hk : k < (gwfGo gen vs (m + 1) (idx + 1)
                (some (attemptFeedback vs (cleanText (gen idx fb))))).2.length := by
              simpa using hj
            obtain ⟨fb', hfb'⟩ := hEntries k hk
            refine ⟨fb', ?_⟩
            simpa [Nat.add_comm, Nat.add_assoc, Nat.add_left_comm] using hfb'

/-- Concrete generate stub for the C1 witness: fails on calls 0 and 1,
passes on call 2. -/
def c1Gen : Nat → Option String → String := fun i _ =>
  if i = 0 then "bad zero" else if i = 1 then "bad one" else "good text"

/-- Concrete validator for the C1 witness. -/
def c1Validator : String → PyVResult := fun t =>
  { valid := some (t == "good text"),
    errors := if t == "good text" then [] else ["must say good text"],
    passed := none, violations := [], feedback := "" }

/-! ## Claims -/

/-- Claim C1 (Retry Controller protocol): for a generate stub whose output
fails at least one validator on attempts 0 and 1 and passes every validator
on attempt 2, running the controller with `max_retries = 2` returns attempt
2's trimmed, unicode-normalized text, invokes generate exactly 3 times
(the trace lists one entry per call), and the feedback argument passed to
the attempt-2 call is `attemptFeedback vs t1` — synthesized from attempt
1's validator results alone, with no dependence on attempt 0. -/
theorem retry_controller_protocol (gen : Nat → Option String → String)
    (vs : List (String → PyVResult)) (t0 fb1 t1 fb2 t2 : String)
    (ht0 : t0 = cleanText (gen 0 none))
    (hfb1 : fb1 = attemptFeedback vs t0)
    (ht1 : t1 = cleanText (gen 1 (some fb1)))
    (hfb2 : fb2 = attemptFeedback vs t1)
    (ht2 : t2 = cleanText (gen 2 (some fb2)))
    (h0 : (runValidators vs t0).1 = false)
    (h1 : (runValidators vs t1).1 = false)
    (h2 : (runValidators vs t2).1 = true) :
    generateWithFeedback gen vs 2 =
      (t2, [(none, t0), (some fb1, t1), (some fb2, t2)]) := by
  subst ht0 hfb1 ht1 hfb2 ht2
  show gwfGo gen vs 3 0 none = _
  rw [gwfGo_fail_step gen vs 1 0 none h0]
  rw [show (0 : Nat) + 1 = 1 from rfl, gwfGo_fail_step gen vs 0 1 _ h1]
  rw [show (1 : Nat) + 1 = 2 from rfl, gwfGo_pass gen vs 0 2 _ h2]

/-- Witness for C1 at a concrete stub and validator. -/
theorem retry_controller_protocol_witness :
    generateWithFeedback c1Gen [c1Validator] 2 =
      ("good text",
        [(none, "bad zero"),
         (some "VALIDATION FAILED: must say good text", "bad one"),
         (some "VALIDATION FAILED: must say good text", "good text")]) :=
  retry_controller_protocol c1Gen [c1Validator]
    "bad zero" "VALIDATION FAILED: must say good text" "bad one"
    "VALIDATION FAILED: must say good text" "good text"
    (by decide) (by decide) (by decide) (by decide) (by decide)
    (by decide) (by decide) (by decide)

/-- Claim C2 (Retry Controller exhaustion is never fatal): for every
generate function, validator list and `max_retries ≥ 0`, the controller is
a total function that performs between 1 and `max_retries + 1` generate
calls and returns the text of the last traced attempt — also when that
attempt failed validation; no validation outcome can abort it. -/
theorem retry_controller_exhaustion (gen : Nat → Option String → String)
    (vs : List (String → PyVResult)) (max_retries : Nat) :
    1 ≤ (generateWithFeedback gen vs max_retries).2.length ∧
    (generateWithFeedback gen vs max_retries).2.length ≤ max_retries + 1 ∧
    ∃ fb, (generateWithFeedback gen vs max_retries).2.getLast? =
      some (fb, (generateWithFeedback gen vs max_retries).1) := by
  obtain ⟨h1, h2, h3, _⟩ := gwfGo_spec gen vs (max_retries + 1) 0 none (by omega)
  exact ⟨h1, h2, h3⟩

/-- Inserting permutes to consing. -/
theorem insertScored_perm (x : Nat × FProject) (l : List (Nat × FProject)) :
    (insertScored x l).Perm (x :: l) := by
  induction l with
  | nil => simp [insertScored]
  | cons y ys ih =>
    by_cases h : y.1 ≤ x.1
    · simp [insertScored, h]
    · simp only [insertScored, if_neg h]
      exact ((ih.cons y).trans (List.Perm.swap x y ys)).symm.symm

/-- The stable sort is a permutation of its input. -/
theorem sortScored_perm (l : List (Nat × FProject)) : (sortScored l).Perm l := by
  induction l with
  | nil => simp [sortScored]
  | cons a l ih =>
    exact (insertScored_perm a (sortScored l)).trans (ih.cons a)

/-- Inserting into a descending list keeps it descending. -/
theorem insertScored_pairwise (x : Nat × FProject) (l : List (Nat × FProject))
    (hl : l.Pairwise (fun a b => b.1 ≤ a.1)) :
    (insertScored x l).Pairwise (fun a b => b.1 ≤ a.1) := by
  induction l with
  | nil => simp [insertScored]
  | cons y ys ih =>
    rcases List.pairwise_cons.1 hl with ⟨hy, hys⟩
    by_cases h : y.1 ≤ x.1
    · simp only [insertScored, if_pos h]
      refine List.pairwise_cons.2 ⟨?_, hl⟩
      intro b hb
      rcases List.mem_cons.1 hb with hb | hb
      · subst hb; omega
      · have := hy b hb; omega
    · simp only [insertScored, if_neg h]
      refine List.pairwise_cons.2 ⟨?_, ih hys⟩
      intro b hb
      have hb2 := (insertScored_perm x ys).mem_iff.1 hb
      rcases List.mem_cons.1 hb2 with hb2 | hb2
      · subst hb2; omega
      · exact hy b hb2

/-- The stable sort is descending by score. -/
theorem sortScored_pairwise (l : List (Nat × FProject)) :
    (sortScored l).Pairwise (fun a b => b.1 ≤ a.1) := by
  induction l with
  | nil => simp [sortScored]
  | cons a l ih => exact insertScored_pairwise a (sortScored l) ih

/-- Insertion does not disturb the elements of other scores. -/
theorem insertScored_filter_ne (x : Nat × FProject) (l : List (Nat × FProject))
    (s : Nat) (hx : x.1 ≠ s) :
    (insertScored x l).filter (fun y => y.1 == s) = l.filter (fun y => y.1 == s) := by
  have hxb : (x.1 == s) = false := by simpa using hx
  induction l with
  | nil => simp [insertScored, List.filter_cons, hxb]
  | cons y ys ih =>
    by_cases h : y.1 ≤ x.1
    · simp only [insertScored, if_pos h]
      simp [List.filter_cons, hxb]
    · simp only [insertScored, if_neg h]
      simp only [List.filter_cons]
      cases hys : (y.1 == s) <;> simp [ih]

/-- Stability: inserting an element of score `s` into a descending list
puts it before every existing element of score `s`. -/
theorem insertScored_filter_eq (x : Nat × FProject) (l : List (Nat × FProject))
    (s : Nat) (hx : x.1 = s) (hl : l.Pairwise (fun a b => b.1 ≤ a.1)) :
    (insertScored x l).filter (fun y => y.1 == s) =
      x :: l.filter (fun y => y.1 == s) := by
  have hxb : (x.1 == s) = true := by simpa using hx
  induction l with
  | nil => simp [insertScored, List.filter_cons, hxb]
  | cons y ys ih =>
    rcases List.pairwise_cons.1 hl with ⟨hy, hys⟩
    by_cases h : y.1 ≤ x.1
    · simp only [insertScored, if_pos h]
      simp [List.filter_cons, hxb]
    · have hyne : y.1 ≠ s := by
        have := hx; omega
      simp only [insertScored, if_neg h]
      simp only [List.filter_cons, show (y.1 == s) = false by simpa using hyne,
        Bool.false_eq_true, if_false]
      exact ih hys

/-- Stability of the full sort: for every score, filtering the sorted list
returns the input's elements of that score in input order. -/
theorem sortScored_filter (l : List (Nat × FProject)) (s : Nat) :
    (sortScored l).filter (fun y => y.1 == s) = l.filter (fun y => y.1 == s) := by
  induction l with
  | nil => simp [sortScored]
  | cons a l ih =>
    by_cases ha : a.1 = s
    · rw [show sortScored (a :: l) = insertScored a (sortScored l) from rfl,
        insertScored_filter_eq a (sortScored l) s ha (sortScored_pairwise l), ih]
      simp [List.filter_cons, show (a.1 == s) = true by simpa using ha]
    · rw [show sortScored (a :: l) = insertScored a (sortScored l) from rfl,
        insertScored_filter_ne a (sortScored l) s ha, ih]
      simp [List.filter_cons, show (a.1 == s) = false by simpa using ha]

/-- Elements of the scored list carry their own score. -/
theorem mem_scored_fst (ps : List FProject) (jd : List String) (x : Nat × FProject)
    (hx : x ∈ ps.map (fun p => (projScore jd p, p))) : x.1 = projScore jd x.2 := by
  rcases List.mem_map.1 hx with ⟨p, _, hp⟩
  subst hp; rfl

/-- Claim C3 (Pre-filter contract): for every project list, job text and
pool size, `pre_filter_projects` returns `min k (length ps)` projects drawn
from `ps`, in non-increasing score order; an empty input yields an empty
output; the output is the `k`-prefix of a descending, stable (per-score
input-ordered) permutation of the scored input; and re-running on identical
inputs is (definitionally) deterministic. -/
theorem pre_filter_contract (ps : List FProject) (jd : String) (k : Nat) :
    (pre_filter_projects ps jd k).length = min k ps.length ∧
    (∀ p ∈ pre_filter_projects ps jd k, p ∈ ps) ∧
    (pre_filter_projects ps jd k).Pairwise
      (fun a b => projScore (jdTokenSet jd) b ≤ projScore (jdTokenSet jd) a) ∧
    (ps = [] → pre_filter_projects ps jd k = []) ∧
    (∃ sorted : List (Nat × FProject),
      sorted.Perm (ps.map (fun p => (projScore (jdTokenSet jd) p, p))) ∧
      sorted.Pairwise (fun a b => b.1 ≤ a.1) ∧
      (∀ s, sorted.filter (fun y => y.1 == s) =
        (ps.map (fun p => (projScore (jdTokenSet jd) p, p))).filter (fun y => y.1 == s)) ∧
      pre_filter_projects ps jd k = (sorted.take k).map Prod.snd) ∧
    pre_filter_projects ps jd k = pre_filter_projects ps jd k := by
  by_cases hps : ps = []
  · subst hps
    refine ⟨by simp [pre_filter_projects], by simp [pre_filter_projects],
      by simp [pre_filter_projects], fun _ => rfl, ⟨[], by simp, by simp, by simp,
        by simp [pre_filter_projects]⟩, rfl⟩
  · have hrw : pre_filter_projects ps jd k =
        ((sortScored (ps.map (fun p => (projScore (jdTokenSet jd) p, p)))).take k).map
          Prod.snd := by
      simp [pre_filter_projects, hps]
    have hperm := sortScored_perm (ps.map (fun p => (projScore (jdTokenSet jd) p, p)))
    have hmemscored : ∀ x ∈ (sortScored (ps.map (fun p => (projScore (jdTokenSet jd) p, p)))).take k,
        x.1 = projScore (jdTokenSet jd) x.2 ∧ x.2 ∈ ps := by
      intro x hx
      have hx2 := hperm.mem_iff.1 ((List.take_sublist k _).mem hx)
      refine ⟨mem_scored_fst ps (jdTokenSet jd) x hx2, ?_⟩
      rcases List.mem_map.1 hx2 with ⟨p, hp, hpe⟩
      subst hpe; exact hp
    refine ⟨?_, ?_, ?_, fun h => absurd h hps, ?_, rfl⟩
    · rw [hrw]
      simp only [List.length_map, List.length_take, hperm.length_eq, List.length_map]
    · intro p hp
      rw [hrw] at hp
      rcases List.mem_map.1 hp with ⟨x, hx, hxe⟩
      subst hxe
      exact (hmemscored x hx).2
    · rw [hrw]
      rw [List.pairwise_map]
      have hpw := (sortScored_pairwise
        (ps.map (fun p => (projScore (jdTokenSet jd) p, p)))).sublist
        (List.take_sublist k _)
      refine List.Pairwise.imp_of_mem ?_ hpw
      intro a b ha hb hab
      have ha' := (hmemscored a ha).1
      have hb' := (hmemscored b hb).1
      omega
    · exact ⟨sortScored (ps.map (fun p => (projScore (jdTokenSet jd) p, p))), hperm,
        sortScored_pairwise _, fun s => sortScored_filter _ s, hrw⟩

/-- Witness for C3: the empty-input clause applied at a concrete input. -/
theorem pre_filter_contract_witness : pre_filter_projects [] "data role" 3 = [] :=
  (pre_filter_contract [] "data role" 3).2.2.2.1 rfl

/-- A prefix is contained. -/
theorem isPrefixOf_append_self (s t : List Char) : s.isPrefixOf (s ++ t) = true := by
  induction s with
  | nil => simp [List.isPrefixOf]
  | cons c cs ih => simpa [List.isPrefixOf] using ih

/-- Containment survives extension on the right via a prefix. -/
theorem containsSub_of_isPrefixOf (sub l : List Char) (h : sub.isPrefixOf l = true) :
    containsSub sub l = true := by
  cases l with
  | nil =>
    cases sub with
    | nil => simp [containsSub]
    | cons c cs => simp [List.isPrefixOf] at h
  | cons c rest => simp [containsSub, h]

/-- Containment survives extension on the left. -/
theorem containsSub_append_left (a sub : List Char) (l : List Char)
    (h : containsSub sub l = true) : containsSub sub (a ++ l) = true := by
  induction a with
  | nil => simpa using h
  | cons c cs ih =>
    simp only [List.cons_append, containsSub]
    simp [ih]

/-- A middle segment is contained in the surrounding concatenation. -/
theorem containsSub_append_middle (a b c : List Char) :
    containsSub b (a ++ (b ++ c)) = true := by
  apply containsSub_append_left
  exact containsSub_of_isPrefixOf b (b ++ c) (isPrefixOf_append_self b c)

/-- `pyIn` for a middle segment of a concatenation. -/
theorem pyIn_append_middle (a b c : String) : pyIn b (a ++ b ++ c) = true := by
  show containsSub b.data (a ++ b ++ c).data = true
  have : (a ++ b ++ c).data = a.data ++ (b.data ++ c.data) := by
    simp [String.data_append]
  rw [this]
  exact containsSub_append_middle a.data b.data c.data

/-- Indexing into `enum`. -/
theorem mem_enum_of_get {α : Type} (xs : List α) (i : Nat) (h : i < xs.length) :
    (i, xs.get ⟨i, h⟩) ∈ xs.enum := by
  have h2 : i < xs.enum.length := by simpa [List.enum_length] using h
  have h3 : xs.enum.get ⟨i, h2⟩ = (i, xs.get ⟨i, h⟩) := by
    simpa [List.get_eq_getElem] using List.getElem_enum xs i h2
  rw [← h3]
  exact List.get_mem xs.enum i h2

/-- Claim C4, counterexample: on a 3-element list whose third element is a
non-string, the single violation names the index and the type but neither
the offending value (which has no string form) nor the allowed set, contrary
to the claim that every non-string element's violation names the offending
value and the allowed set. -/
theorem archetype_validator_counterexample :
    (validate_archetypes c4Input TASK_ARCHETYPES 3).valid = false ∧
    (validate_archetypes c4Input TASK_ARCHETYPES 3).errors =
      ["Archetype at index 2 must be a string, got <class " ++ sQuote ++ "int" ++ sQuote ++ ">"] ∧
    (∀ e ∈ (validate_archetypes c4Input TASK_ARCHETYPES 3).errors,
      pyIn (pyReprList TASK_ARCHETYPES) e = false) := by
  refine ⟨by decide, by decide, ?_⟩
  intro e he
  have : e = "Archetype at index 2 must be a string, got <class " ++ sQuote ++ "int" ++
      sQuote ++ ">" := by
    have h2 : (validate_archetypes c4Input TASK_ARCHETYPES 3).errors =
        ["Archetype at index 2 must be a string, got <class " ++ sQuote ++ "int" ++
          sQuote ++ ">"] := by decide
    rw [h2] at he
    simpa using he
  subst this
  decide

/-- Generic containment from an explicit decomposition of the data. -/
theorem pyIn_parts (sub s : String) (a c : List Char)
    (h : s.data = a ++ (sub.data ++ c)) : pyIn sub s = true := by
  show containsSub sub.data s.data = true
  rw [h]
  exact containsSub_append_left a _ _
    (containsSub_of_isPrefixOf _ _ (isPrefixOf_append_self _ _))

/-- Claim C4, amended (Archetype Validator): a list of exactly
`expected_count` distinct strings all drawn from `allowed` yields
`valid = true` with no errors; a non-list input yields immediate failure
with the single list-shape error; a length different from
`expected_count` is recorded as an ordinary violation while the element
checks still run, so count mismatch and invalid members are reported
together; every non-string element produces its own violation naming its
index and its type (not the value or the allowed set); and every string
element outside `allowed` produces its own violation naming the offending
value and the allowed set. -/
theorem archetype_validator_amended :
    (∀ (xs : List ArchElem) (allowed : List String) (n : Nat),
      xs.all (fun e => match e with
        | ArchElem.str s => allowed.contains s
        | ArchElem.nonStr _ => false) = true → xs.length = n → xs.Nodup →
      validate_archetypes (ArchInput.list xs) allowed n = { valid := true, errors := [] }) ∧
    (∀ (allowed : List String) (n : Nat),
      validate_archetypes ArchInput.nonList allowed n =
        { valid := false, errors := ["Archetypes must be a list"] }) ∧
    (∀ (xs : List ArchElem) (allowed : List String) (n : Nat), xs.length ≠ n →
      archCountMsg n xs.length ∈ (validate_archetypes (ArchInput.list xs) allowed n).errors) ∧
    (∀ (xs : List ArchElem) (allowed : List String) (n i : Nat) (t : String)
      (h : i < xs.length), xs.get ⟨i, h⟩ = ArchElem.nonStr t →
      archNonStrMsg i t ∈ (validate_archetypes (ArchInput.list xs) allowed n).errors ∧
      pyIn (toString i) (archNonStrMsg i t) = true ∧
      pyIn t (archNonStrMsg i t) = true) ∧
    (∀ (xs : List ArchElem) (allowed : List String) (n i : Nat) (s : String)
      (h : i < xs.length), xs.get ⟨i, h⟩ = ArchElem.str s → s ∉ allowed →
      archInvalidMsg s i allowed ∈ (validate_archetypes (ArchInput.list xs) allowed n).errors ∧
      pyIn (sQuote ++ s ++ sQuote) (archInvalidMsg s i allowed) = true ∧
      pyIn (pyReprList allowed) (archInvalidMsg s i allowed) = true) := by
  refine ⟨?_, ?_, ?_, ?_, ?_⟩
  · intro xs allowed n hall hlen _
    have helems : archElemErrors allowed xs = [] := by
      simp only [archElemErrors]
      rw [List.flatMap_eq_nil_iff]
      intro p hp
      obtain ⟨i, e⟩ := p
      have hip := List.mem_enum hp
      have hpx : e ∈ xs := by
        have h2 : e = xs[i] := hip.2
        rw [h2]; exact List.getElem_mem hip.1
      have he := List.all_eq_true.1 hall e hpx
      cases e with
      | str s =>
        have he2 : allowed.contains s = true := he
        simp only [List.flatMap]
        simp [List.elem_iff.1 he2]
      | nonStr t => simp at he
    simp [validate_archetypes, hlen, helems]
  · intro allowed n
    rfl
  · intro xs allowed n hne
    simp only [validate_archetypes, if_neg hne]
    exact List.mem_append_left _ (by simp)
  · intro xs allowed n i t h hget
    have hget2 : xs[i] = ArchElem.nonStr t := by
      simpa [List.get_eq_getElem] using hget
    refine ⟨?_, ?_, ?_⟩
    · have hmem : (i, xs.get ⟨i, h⟩) ∈ xs.enum := mem_enum_of_get xs i h
      have hin : archNonStrMsg i t ∈ archElemErrors allowed xs := by
        apply List.mem_flatMap.2
        refine ⟨(i, xs.get ⟨i, h⟩), hmem, ?_⟩
        simp [hget, List.get_eq_getElem, hget2]
      simp only [validate_archetypes]
      exact List.mem_append_right _ hin
    · exact pyIn_parts (toString i) _ "Archetype at index ".data
        (" must be a string, got ".data ++ t.data)
        (by simp [archNonStrMsg, String.data_append])
    · exact pyIn_parts t _
        ("Archetype at index ".data ++ (toString i).data ++ " must be a string, got ".data)
        [] (by simp [archNonStrMsg, String.data_append])
  · intro xs allowed n i s h hget hnot
    have hget2 : xs[i] = ArchElem.str s := by
      simpa [List.get_eq_getElem] using hget
    have hcon : allowed.contains s = false := by
      by_contra hc
      exact hnot (List.elem_iff.1 (by simpa using hc))
    refine ⟨?_, ?_, ?_⟩
    · have hmem : (i, xs.get ⟨i, h⟩) ∈ xs.enum := mem_enum_of_get xs i h
      have hin : archInvalidMsg s i allowed ∈ archElemErrors allowed xs := by
        apply List.mem_flatMap.2
        refine ⟨(i, xs.get ⟨i, h⟩), hmem, ?_⟩
        simp only [List.get_eq_getElem, hget2]
        simp [show s ∉ allowed from hnot]
      simp only [validate_archetypes]
      exact List.mem_append_right _ hin
    · exact pyIn_parts (sQuote ++ s ++ sQuote) _ "Invalid archetype ".data
        ((" at index " ++ toString i ++ ". Choose only from: ").data ++
          (pyReprList allowed).data)
        (by simp [archInvalidMsg, String.data_append])
    · exact pyIn_parts (pyReprList allowed) _
        (("Invalid archetype " ++ sQuote ++ s ++ sQuote ++ " at index " ++ toString i ++
          ". Choose only from: ").data) []
        (by simp [archInvalidMsg, String.data_append])

/-- Witness for the amended C4 at concrete inputs. -/
theorem archetype_validator_amended_witness :
    validate_archetypes
        (ArchInput.list [ArchElem.str "data_analytics", ArchElem.str "research_ml",
          ArchElem.str "cloud_devops"]) TASK_ARCHETYPES 3 = { valid := true, errors := [] } ∧
    validate_archetypes ArchInput.nonList TASK_ARCHETYPES 3 =
      { valid := false, errors := ["Archetypes must be a list"] } ∧
    archCountMsg 3 1 ∈
      (validate_archetypes (ArchInput.list [ArchElem.str "data_analytics"])
        TASK_ARCHETYPES 3).errors ∧
    archInvalidMsg "bogus" 1 TASK_ARCHETYPES ∈
      (validate_archetypes
        (ArchInput.list [ArchElem.str "data_analytics", ArchElem.str "bogus",
          ArchElem.str "research_ml"]) TASK_ARCHETYPES 3).errors := by
  refine ⟨?_, ?_, ?_, ?_⟩
  · exact archetype_validator_amended.1
      [ArchElem.str "data_analytics", ArchElem.str "research_ml", ArchElem.str "cloud_devops"]
      TASK_ARCHETYPES 3 (by decide) (by decide) (by decide)
  · exact archetype_validator_amended.2.1 TASK_ARCHETYPES 3
  · exact archetype_validator_amended.2.2.1 [ArchElem.str "data_analytics"]
      TASK_ARCHETYPES 3 (by decide)
  · exact (archetype_validator_amended.2.2.2.2
      [ArchElem.str "data_analytics", ArchElem.str "bogus", ArchElem.str "research_ml"]
      TASK_ARCHETYPES 3 1 "bogus" (by decide) (by decide) (by decide)).1

/-- Claim C5, counterexample: an empty-text `professional_summary` does
*not* pass when a minimum line count is configured — the summary check has
no empty-text early return, so the empty text counts as 0 lines and fails
the window. -/
theorem format_validator_counterexample :
    validate_section_format "professional_summary" "" c5Rules =
      { valid := false, errors := ["Summary should have at least 3 lines, got 0"] } := by
  decide

/-- Claim C5, amended (Format Validator trivial pass): empty text passes
trivially for every section except `professional_summary` (whose line-count
and pattern checks also run on empty text); a section with no configured
rule (missing or empty rules entry) passes trivially for
`professional_summary`, `education`, `skills`, `certifications` and
`cover_letter` — but not for `projects` and `experience`, which enforce
built-in default bullet caps (10 per project block, 5 per role) even when
unconfigured; unknown section names always pass. -/
theorem format_validator_amended :
    (∀ (rules : ValidationRules) (text : String), pyStrip text = "" →
      validate_section_format "education" text rules = { valid := true, errors := [] }) ∧
    (∀ (rules : ValidationRules) (text : String), pyStrip text = "" →
      validate_section_format "skills" text rules = { valid := true, errors := [] }) ∧
    (∀ (rules : ValidationRules) (text : String), pyStrip text = "" →
      validate_section_format "projects" text rules = { valid := true, errors := [] }) ∧
    (∀ (rules : ValidationRules) (text : String), pyStrip text = "" →
      validate_section_format "experience" text rules = { valid := true, errors := [] }) ∧
    (∀ (rules : ValidationRules) (text : String), pyStrip text = "" →
      validate_section_format "certifications" text rules = { valid := true, errors := [] }) ∧
    (∀ (rules : ValidationRules) (text : String), pyStrip text = "" →
      validate_section_format "cover_letter" text rules = { valid := true, errors := [] }) ∧
    (∀ (rules : ValidationRules) (text : String), rules.professional_summary = {} →
      validate_section_format "professional_summary" text rules =
        { valid := true, errors := [] }) ∧
    (∀ (rules : ValidationRules) (text : String), rules.education = {} →
      validate_section_format "education" text rules = { valid := true, errors := [] }) ∧
    (∀ (rules : ValidationRules) (text : String), rules.skills = {} →
      validate_section_format "skills" text rules = { valid := true, errors := [] }) ∧
    (∀ (rules : ValidationRules) (text : String), rules.certifications = {} →
      validate_section_format "certifications" text rules = { valid := true, errors := [] }) ∧
    (∀ (rules : ValidationRules) (text : String), rules.cover_letter = {} →
      validate_section_format "cover_letter" text rules = { valid := true, errors := [] }) ∧
    (∀ (rules : ValidationRules) (text : String) (s : String),
      s ≠ "professional_summary" → s ≠ "education" → s ≠ "skills" → s ≠ "projects" →
      s ≠ "experience" → s ≠ "certifications" → s ≠ "cover_letter" →
      validate_section_format s text rules = { valid := true, errors := [] }) := by
  have hstrip : pyStrip "" = "" := rfl
  refine ⟨?_, ?_, ?_, ?_, ?_, ?_, ?_, ?_, ?_, ?_, ?_, ?_⟩
  · intro rules text h
    simp [validate_section_format, validateEducation, h, hstrip]
  · intro rules text h
    simp [validate_section_format, validateSkills, h, hstrip]
  · intro rules text h
    simp [validate_section_format, validateProjects, h, hstrip]
  · intro rules text h
    simp [validate_section_format, validateExperience, h, hstrip]
  · intro rules text h
    simp [validate_section_format, validateCertifications, h, hstrip]
  · intro rules text h
    simp [validate_section_format, validateCoverLetter, h, hstrip]
  · intro rules text h
    simp [validate_section_format, validateProfessionalSummary, h, optTruthy]
  · intro rules text h
    simp [validate_section_format, validateEducation, h]
  · intro rules text h
    simp [validate_section_format, validateSkills, h]
  · intro rules text h
    simp [validate_section_format, validateCertifications, h]
  · intro rules text h
    simp [validate_section_format, validateCoverLetter, h, optTruthy]
  · intro rules text s h1 h2 h3 h4 h5 h6 h7
    simp [validate_section_format, h1, h2, h3, h4, h5, h6, h7]

/-- Witness for the amended C5 at concrete inputs. -/
theorem format_validator_amended_witness :
    validate_section_format "experience" "   " ({} : ValidationRules) =
      { valid := true, errors := [] } ∧
    validate_section_format "professional_summary" "any text at all"
      ({} : ValidationRules) = { valid := true, errors := [] } ∧
    validate_section_format "unknown_section" "- a\n- b" c5Rules =
      { valid := true, errors := [] } := by
  refine ⟨?_, ?_, ?_⟩
  · exact format_validator_amended.2.2.2.1 {} "   " (by decide)
  · exact format_validator_amended.2.2.2.2.2.2.1 {} "any text at all" rfl
  · exact format_validator_amended.2.2.2.2.2.2.2.2.2.2.2 c5Rules "- a\n- b"
      "unknown_section" (by decide) (by decide) (by decide) (by decide) (by decide)
      (by decide) (by decide)

/-- Deduplication keeps every element that is not already seen. -/
theorem mem_dedupGo (x : String) : ∀ (l seen : List String),
    x ∈ l → x ∉ seen → x ∈ dedupGo l seen := by
  intro l
  induction l with
  | nil => intro seen h _; simp at h
  | cons y rest ih =>
    intro seen hx hseen
    by_cases hy : y ∈ seen
    · rcases List.mem_cons.1 hx with hxy | hxr
      · subst hxy; exact absurd hy hseen
      · simpa [dedupGo, hy] using ih seen hxr hseen
    · rcases List.mem_cons.1 hx with hxy | hxr
      · subst hxy
        simp [dedupGo, hy]
      · by_cases hxy2 : x = y
        · subst hxy2
          simp [dedupGo, hy]
        · have hnotin : x ∉ y :: seen := by
            intro hin
            rcases List.mem_cons.1 hin with h | h
            · exact hxy2 h
            · exact hseen h
          have hrec := ih (y :: seen) hxr hnotin
          simp [dedupGo, hy]
          exact Or.inr hrec

/-- Membership survives deduplication. -/
theorem mem_pyDedup (x : String) (l : List String) (h : x ∈ l) : x ∈ pyDedup l :=
  mem_dedupGo x l [] h (by simp)

/-- Claim C6, counterexample: with company "Acme Corp" in the profile and a
text omitting it, the violation's `claim` holds the *normalized* name
"acme corp"; no violation contains the capitalized literal "Acme Corp", so
the claim as stated (containment of "Acme Corp") fails. -/
theorem fact_check_missing_company_counterexample :
    (fact_check "experience" "nothing relevant here" c6Profile).passed = false ∧
    (fact_check "experience" "nothing relevant here" c6Profile).violations =
      [{ claim := "Company " ++ sQuote ++ "acme corp" ++ sQuote ++ " missing",
         source := "experience",
         expected := "All companies from profile must appear exactly" }] ∧
    (∀ v ∈ (fact_check "experience" "nothing relevant here" c6Profile).violations,
      pyIn "Acme Corp" v.claim = false) := by
  refine ⟨by decide, by decide, by decide⟩

/-- Claim C6, amended (Fact-Check on experience, missing company): for every
profile containing a company "Acme Corp" and every text whose normalized
form contains neither "acme corp" nor its first word "acme",
`fact_check "experience"` fails and reports a violation whose `claim`
contains the *normalized* company name "acme corp".  (The source normalizes
company names to lower case before comparing and reporting, so the claim's
capitalized literal "Acme Corp" never appears in the violation.) -/
theorem fact_check_missing_company_amended (profile : PyProfile) (text : String)
    (hc : ∃ e ∈ profile.experience, e.company = "Acme Corp")
    (h1 : pyIn "acme corp" (pyNormalize text) = false)
    (h2 : pyIn "acme" (pyNormalize text) = false) :
    (fact_check "experience" text profile).passed = false ∧
    ∃ v ∈ (fact_check "experience" text profile).violations,
      pyIn "acme corp" v.claim = true := by
  obtain ⟨e, he, hcomp⟩ := hc
  have hnorm : pyNormalize "Acme Corp" = "acme corp" := by decide
  have hmem : "acme corp" ∈ factCompanies profile := by
    apply mem_pyDedup
    apply List.mem_filterMap.2
    refine ⟨e, he, ?_⟩
    simp [hcomp, hnorm]
  have hviol :
      ({ claim := "Company " ++ sQuote ++ "acme corp" ++ sQuote ++ " missing",
         source := "experience",
         expected := "All companies from profile must appear exactly" } : FCViolation) ∈
        factCheckMissingCompanies (factCompanies profile) (pyNormalize text) := by
    apply List.mem_filterMap.2
    refine ⟨"acme corp", hmem, ?_⟩
    have hsplit : pySplitWs "acme corp" = ["acme", "corp"] := by decide
    simp [factCheckMissingCompanies, h1, h2, hsplit]
  have hviol2 :
      ({ claim := "Company " ++ sQuote ++ "acme corp" ++ sQuote ++ " missing",
         source := "experience",
         expected := "All companies from profile must appear exactly" } : FCViolation) ∈
        (fact_check "experience" text profile).violations := by
    show _ ∈ factCheckExperience text profile
    exact List.mem_append_left _ (List.mem_append_left _ hviol)
  refine ⟨?_, ⟨_, hviol2, ?_⟩⟩
  · have hne : (fact_check "experience" text profile).violations ≠ [] := by
      intro hnil
      rw [hnil] at hviol2
      simp at hviol2
    show decide ((factCheckExperience text profile).length = 0) = false
    have : factCheckExperience text profile ≠ [] := hne
    simp [List.length_eq_zero, this]
  · show pyIn "acme corp" ("Company " ++ sQuote ++ ("acme corp" ++ (sQuote ++ " missing"))) = true
    exact pyIn_parts _ _ ("Company " ++ sQuote).data (sQuote ++ " missing").data
      (by simp [String.data_append])

/-- Witness for the amended C6 at a concrete profile and text. -/
theorem fact_check_missing_company_amended_witness :
    (fact_check "experience" "wholly unrelated output" c6Profile).passed = false ∧
    ∃ v ∈ (fact_check "experience" "wholly unrelated output" c6Profile).violations,
      pyIn "acme corp" v.claim = true :=
  fact_check_missing_company_amended c6Profile "wholly unrelated output"
    ⟨⟨"Acme Corp", "", "", "", ""⟩, by decide, rfl⟩ (by decide) (by decide)

/-- Claim C10 (Fact-Check projects with no named projects): when the profile
contributes no project names — empty list or only unnamed projects — the
`projects` fact check accepts every text, bold-delimited fabrications
included, with zero violations. -/
theorem fact_check_projects_no_names (profile : PyProfile) (text : String)
    (h : ∀ p ∈ profile.projects, p.name = "") :
    fact_check "projects" text profile =
      { passed := true, violations := [], feedback := "" } := by
  have hnames : factProjectNames profile = [] := by
    simp only [factProjectNames]
    rw [List.filterMap_eq_nil_iff]
    intro p hp
    simp [h p hp]
  have hviol : factCheckProjects text profile = [] := by
    simp only [factCheckProjects, hnames]
    rw [List.filterMap_eq_nil_iff]
    intro a _
    simp
  simp [fact_check, hviol]

/-- Witness for C10: a profile holding one unnamed project and a text full
of fabricated bold names. -/
theorem fact_check_projects_no_names_witness :
    fact_check "projects" "**Fabricated One**\n**Fabricated Two**" c10Profile =
      { passed := true, violations := [], feedback := "" } :=
  fact_check_projects_no_names c10Profile "**Fabricated One**\n**Fabricated Two**"
    (by decide)

/-- The `projects` format check accepts the empty text for any rules. -/
theorem validate_format_projects_empty (rules : ValidationRules) :
    validate_section_format "projects" "" rules = { valid := true, errors := [] } := by
  simp [validate_section_format, validateProjects, pyStrip, pyStripList]

/-- The `projects` fact check accepts the empty text for any profile. -/
theorem fact_check_projects_empty (profile : PyProfile) :
    fact_check "projects" "" profile = { passed := true, violations := [], feedback := "" } := by
  have hviol : factCheckProjects "" profile = [] := by
    simp only [factCheckProjects]
    have : findAllBold "".data.length "".data = [] := rfl
    rw [this]
    rfl
  simp [fact_check, hviol]

/-- The hallucination detector accepts the empty text in every section. -/
theorem detect_hallucinations_empty (sect : String) (profile : PyProfile) :
    detect_hallucinations sect "" profile =
      { passed := true, violations := [], feedback := "" } := by
  simp [detect_hallucinations, pyStrip, pyStripList]

/-- The projects validator trio all passes on the empty text. -/
theorem runValidators_projects_empty (rules : ValidationRules) (profile : PyProfile) :
    runValidators (validatorsFor "projects" rules profile) "" = (true, []) := by
  have h1 := validate_format_projects_empty rules
  have h2 := fact_check_projects_empty profile
  have h3 := detect_hallucinations_empty "projects" profile
  simp [validatorsFor, runValidators, vErrorsToPy, fcToPy, halToPy, h1, h2, h3]

/-- Claim C7 (Empty-source sections short-circuit): a profile with no
projects makes `generate_smart_projects` — and the whole projects stage,
retry controller and spacing normalization included — return the empty
string for every possible generator, so the Text Generator is never
consulted; likewise a profile with no certifications makes
`generate_smart_certifications` return the empty string for every
generator. -/
theorem empty_source_short_circuit :
    (∀ (env : GenEnv) (profile : PyProfile) (jd : String) (archetypes : List String)
      (gen : String → String → String) (fb : Option String), profile.projects = [] →
      generate_smart_projects env profile jd archetypes gen fb = "") ∧
    (∀ (env : GenEnv) (profile : PyProfile) (jd : String) (archetypes : List String)
      (gen : String → String → String) (fb : Option String), profile.certifications = [] →
      generate_smart_certifications env profile jd archetypes gen fb = "") ∧
    (∀ (env : GenEnv) (profile : PyProfile) (jd : String) (archetypes : List String)
      (rawGen : Nat → String → String → String) (rules : ValidationRules)
      (max_retries : Nat), profile.projects = [] →
      projectsStageText env profile jd archetypes rawGen rules max_retries = "") := by
  have hgsp : ∀ (env : GenEnv) (profile : PyProfile) (jd : String)
      (archetypes : List String) (gen : String → String → String) (fb : Option String),
      profile.projects = [] → generate_smart_projects env profile jd archetypes gen fb = "" := by
    intro env profile jd archetypes gen fb h
    simp [generate_smart_projects, h]
  refine ⟨hgsp, ?_, ?_⟩
  · intro env profile jd archetypes gen fb h
    simp [generate_smart_certifications, h]
  · intro env profile jd archetypes rawGen rules max_retries h
    have hgen : ∀ i fb,
        generate_smart_projects env profile jd archetypes (rawGen i) fb = "" := by
      intro i fb
      exact hgsp env profile jd archetypes (rawGen i) fb h
    have hclean : cleanText "" = "" := rfl
    have hpass := runValidators_projects_empty rules profile
    show normalize_spacing
      (gwfGo (fun i fb => generate_smart_projects env profile jd archetypes (rawGen i) fb)
        (validatorsFor "projects" rules profile) (max_retries + 1) 0 none).1 = ""
    rw [gwfGo_pass _ _ max_retries 0 none (by simp [hgen, hclean, hpass])]
    simp [hgen, hclean, normalize_spacing]

/-- Witness for C7 at concrete inputs (a generator that would return
non-empty text if it were ever consulted). -/
theorem empty_source_short_circuit_witness :
    generate_smart_projects dummyEnv emptyProfile "a job" ["data_analytics"]
      (fun _ _ => "GENERATED") none = "" ∧
    generate_smart_certifications dummyEnv emptyProfile "a job" ["data_analytics"]
      (fun _ _ => "GENERATED") none = "" ∧
    projectsStageText dummyEnv emptyProfile "a job" ["data_analytics"]
      (fun _ _ _ => "GENERATED") c5Rules 2 = "" :=
  ⟨empty_source_short_circuit.1 dummyEnv emptyProfile "a job" ["data_analytics"]
      (fun _ _ => "GENERATED") none rfl,
   empty_source_short_circuit.2.1 dummyEnv emptyProfile "a job" ["data_analytics"]
      (fun _ _ => "GENERATED") none rfl,
   empty_source_short_circuit.2.2 dummyEnv emptyProfile "a job" ["data_analytics"]
      (fun _ _ _ => "GENERATED") c5Rules 2 rfl⟩

/-- Claim C8, counterexample: on the line `**Tools:** Go, R` with an empty
skill vocabulary both comma-separated items are unmatched, yet only one
violation is emitted — the item `R` normalizes to the 1-character "r",
which the detector skips (`len(skill) > 2` gate); the flagged item is
moreover reported as "** Go" (the text after the first colon keeps the
closing bold marker), not "Go".  This refutes "every unmatched item is a
violation". -/
theorem hallucination_skills_counterexample :
    (detect_hallucinations "skills" "**Tools:** Go, R" emptyProfile).violations =
      ["Skill not in profile: " ++ sQuote ++ "** Go" ++ sQuote] ∧
    (detect_hallucinations "skills" "**Tools:** Go, R" emptyProfile).passed = false ∧
    (∀ v ∈ (detect_hallucinations "skills" "**Tools:** Go, R" emptyProfile).violations,
      pyIn "R" v = false) := by
  refine ⟨by decide, by decide, by decide⟩

/-- Claim C8, amended (Hallucination Detector on skills): for every line of
the text containing a colon (the `**Category:** a, b, c` lines among them),
every comma-separated item of the text after the first colon — which for
the first item still carries the category's closing `**` — is normalized;
items of normalized length `≤ 2` are skipped; every remaining item that
fails to two-way-substring-match every entry of the union of the flattened
skill buckets, soft skills and flat skill lists produces one violation
naming the (stripped) item; and when every item is matched or skipped the
detector passes with zero violations. -/
theorem hallucination_skills_amended :
    (∀ (profile : PyProfile) (text line part : String),
      pyStrip text ≠ "" →
      line ∈ pySplitlines text →
      pyIn ":" line = true →
      part ∈ pySplitChar ',' (afterFirstColon line) →
      (pyNormalize (pyStrip part)).length > 2 →
      (∀ a ∈ buildAllowedSkills profile,
        pyIn (pyNormalize (pyStrip part)) a = false ∧
          pyIn a (pyNormalize (pyStrip part)) = false) →
      ("Skill not in profile: " ++ sQuote ++ pyStrip part ++ sQuote) ∈
        (detect_hallucinations "skills" text profile).violations) ∧
    (∀ (profile : PyProfile) (text : String),
      (∀ line ∈ pySplitlines text, ∀ part ∈ pySplitChar ',' (afterFirstColon line),
        (pyNormalize (pyStrip part)).length ≤ 2 ∨
        ∃ a ∈ buildAllowedSkills profile,
          pyIn (pyNormalize (pyStrip part)) a = true ∨
            pyIn a (pyNormalize (pyStrip part)) = true) →
      detect_hallucinations "skills" text profile =
        { passed := true, violations := [], feedback := "" }) := by
  constructor
  · intro profile text line part hne hline hcolon hpart hlen hnomatch
    have hviol : ("Skill not in profile: " ++ sQuote ++ pyStrip part ++ sQuote) ∈
        halSkillsViolations profile text := by
      apply List.mem_flatMap.2
      refine ⟨line, hline, ?_⟩
      simp only [skillsLineViolations, hcolon, if_pos]
      apply List.mem_filterMap.2
      refine ⟨part, hpart, ?_⟩
      have hnemp : pyNormalize (pyStrip part) ≠ "" := by
        intro he
        rw [he] at hlen
        simp at hlen
      have hany : (buildAllowedSkills profile).any
          (fun a => pyIn (pyNormalize (pyStrip part)) a ||
            pyIn a (pyNormalize (pyStrip part))) = false := by
        rw [List.any_eq_false]
        intro a ha
        have := hnomatch a ha
        simp [this.1, this.2]
      simp [hnemp, hlen, hany]
    simp only [detect_hallucinations, if_neg hne]
    simpa using hviol
  · intro profile text hall
    by_cases hne : pyStrip text = ""
    · simp [detect_hallucinations, hne]
    · have hviol : halSkillsViolations profile text = [] := by
        simp only [halSkillsViolations]
        rw [List.flatMap_eq_nil_iff]
        intro line hline
        simp only [skillsLineViolations]
        by_cases hcolon : pyIn ":" line = true
        · simp only [hcolon, if_pos]
          rw [List.filterMap_eq_nil_iff]
          intro part hpart
          rcases hall line hline part hpart with h | ⟨a, ha, hm⟩
          · have : ¬ ((pyNormalize (pyStrip part)).length > 2) := by omega
            simp [this]
          · have hany : (buildAllowedSkills profile).any
                (fun a => pyIn (pyNormalize (pyStrip part)) a ||
                  pyIn a (pyNormalize (pyStrip part))) = true := by
              rw [List.any_eq_true]
              refine ⟨a, ha, ?_⟩
              rcases hm with h | h <;> simp [h]
            simp [hany]
        · simp [hcolon]
      simp [detect_hallucinations, hne, hviol]

/-- Witness for the amended C8: an unmatched long item is flagged; a text
whose items all match passes. -/
theorem hallucination_skills_amended_witness :
    ("Skill not in profile: " ++ sQuote ++ "** FancyTool" ++ sQuote) ∈
      (detect_hallucinations "skills" "**Tools:** FancyTool" c8Profile).violations ∧
    detect_hallucinations "skills" "**Tools:** Python" c8Profile =
      { passed := true, violations := [], feedback := "" } :=
  ⟨hallucination_skills_amended.1 c8Profile "**Tools:** FancyTool" "**Tools:** FancyTool"
      "** FancyTool" (by decide) (by decide) (by decide) (by decide) (by decide) (by decide),
   hallucination_skills_amended.2 c8Profile "**Tools:** Python" (by decide)⟩

/-- Every maximal run of consecutive bullet lines (equivalently: every
all-bullet consecutive segment) in `lines` has length at most `m`. -/
def AllRunsLe (m : Nat) (lines : List String) : Prop :=
  ∀ pre mid post, lines = pre ++ mid ++ post →
    (∀ l ∈ mid, isBulletLine l = true) → mid.length ≤ m

/-- Length of the leading all-bullet run. -/
def prefixBullets (l : List String) : Nat :=
  (l.takeWhile (fun s => isBulletLine s)).length

/-- An all-bullet prefix is no longer than the leading bullet run. -/
theorem allBullet_le_prefixBullets :
    ∀ (mid post l : List String), l = mid ++ post →
      (∀ x ∈ mid, isBulletLine x = true) → mid.length ≤ prefixBullets l := by
  intro mid
  induction mid with
  | nil => intro post l _ _; simp
  | cons b bs ih =>
    intro post l hl hmid
    have hb : isBulletLine b = true := hmid b (by simp)
    subst hl
    have := ih post (bs ++ post) rfl (fun x hx => hmid x (by simp [hx]))
    simp only [prefixBullets, List.cons_append, List.takeWhile_cons, hb, List.length_cons]
    simpa [prefixBullets] using this

/-- Prepending a non-bullet line preserves the run bound. -/
theorem AllRunsLe.cons_nonbullet {m : Nat} {l : List String} {x : String}
    (hx : isBulletLine x = false) (h : AllRunsLe m l) : AllRunsLe m (x :: l) := by
  intro pre mid post heq hmid
  cases pre with
  | nil =>
    cases mid with
    | nil => simp
    | cons y ys =>
      have hy : y = x := by
        have := congrArg (fun t => t.headD "") heq
        simpa using this.symm
      subst hy
      have := hmid y (by simp)
      rw [hx] at this
      cases this
  | cons p ps =>
    have heq2 : l = ps ++ mid ++ post := by
      have := congrArg List.tail heq
      simpa using this
    exact h ps mid post heq2 hmid

/-- Prepending a bullet line is safe when the leading run stays in budget. -/
theorem AllRunsLe.cons_bullet {m : Nat} {l : List String} {x : String}
    (hx : isBulletLine x = true) (h : AllRunsLe m l)
    (hpb : 1 + prefixBullets l ≤ m) : AllRunsLe m (x :: l) := by
  intro pre mid post heq hmid
  cases pre with
  | nil =>
    cases mid with
    | nil => simp
    | cons y ys =>
      have hl : l = ys ++ post := by
        have := congrArg List.tail heq
        simpa using this
      have hys := allBullet_le_prefixBullets ys post l hl
        (fun z hz => hmid z (by simp [hz]))
      simp only [List.length_cons]
      omega
  | cons p ps =>
    have heq2 : l = ps ++ mid ++ post := by
      have := congrArg List.tail heq
      simpa using this
    exact h ps mid post heq2 hmid

/-- The empty list satisfies any run bound. -/
theorem AllRunsLe.nil {m : Nat} : AllRunsLe m [] := by
  intro pre mid post heq _
  have : mid = [] := by
    cases pre <;> simp_all
  simp [this]

/-- `prefixBullets` of a cons. -/
theorem prefixBullets_cons (x : String) (l : List String) :
    prefixBullets (x :: l) =
      if isBulletLine x then prefixBullets l + 1 else 0 := by
  by_cases hx : isBulletLine x = true
  · simp [prefixBullets, List.takeWhile_cons, hx]
  · have hx2 : isBulletLine x = false := by simpa using hx
    simp [prefixBullets, List.takeWhile_cons, hx2]

/-- Invariant of the clamp loop: starting with `count ≤ maxB` used slots,
the output satisfies the run bound and its leading run fits the remaining
budget. -/
theorem enforceGo_runs (maxB : Nat) : ∀ (lines : List String) (started : Bool) (count : Nat),
    count ≤ maxB →
    AllRunsLe maxB (enforceGo maxB lines started count) ∧
    prefixBullets (enforceGo maxB lines started count) + count ≤ maxB := by
  intro lines
  induction lines with
  | nil =>
    intro started count hc
    exact ⟨AllRunsLe.nil, by simp [enforceGo, prefixBullets]; omega⟩
  | cons line rest ih =>
    intro started count hc
    by_cases hempty : pyStrip line = ""
    · simpa [enforceGo, hempty] using ih started count hc
    · by_cases hbul : isBulletLine (pyStrip line) = true
      · by_cases hlt : count < maxB
        · have ihn := ih true (count + 1) (by omega)
          have hrw : enforceGo maxB (line :: rest) started count =
              pyStrip line :: enforceGo maxB rest true (count + 1) := by
            simp [enforceGo, hempty, hbul, hlt]
          rw [hrw]
          refine ⟨AllRunsLe.cons_bullet hbul ihn.1 (by omega), ?_⟩
          rw [prefixBullets_cons]
          simp only [hbul, if_pos]
          omega
        · have hrw : enforceGo maxB (line :: rest) started count =
              enforceGo maxB rest started count := by
            simp [enforceGo, hempty, hbul, hlt]
          rw [hrw]
          exact ih started count hc
      · have hbul2 : isBulletLine (pyStrip line) = false := by simpa using hbul
        have ihn := ih true 0 (by omega)
        have hnb : isBulletLine "" = false := by decide
        cases started with
        | true =>
          have hrw : enforceGo maxB (line :: rest) true count =
              "" :: pyStrip line :: enforceGo maxB rest true 0 := by
            simp [enforceGo, hempty, hbul2]
          rw [hrw]
          refine ⟨(ihn.1.cons_nonbullet hbul2).cons_nonbullet hnb, ?_⟩
          rw [prefixBullets_cons]
          simp [hnb]
          omega
        | false =>
          have hrw : enforceGo maxB (line :: rest) false count =
              pyStrip line :: enforceGo maxB rest true 0 := by
            simp [enforceGo, hempty, hbul2]
          rw [hrw]
          refine ⟨ihn.1.cons_nonbullet hbul2, ?_⟩
          rw [prefixBullets_cons]
          simp [hbul2]
          omega

/-- Splitting a separator-free list yields one piece. -/
theorem splitCharGo_no_sep (sep : Char) :
    ∀ (cs acc : List Char), sep ∉ cs →
      splitCharGo sep cs acc = [String.mk (acc.reverse ++ cs)] := by
  intro cs
  induction cs with
  | nil => intro acc _; simp [splitCharGo]
  | cons c rest ih =>
    intro acc hmem
    have hc : c ≠ sep := by
      intro he; exact hmem (by simp [he])
    have hrest : sep ∉ rest := fun h => hmem (by simp [h])
    have hne : ¬ (c = sep) := hc
    simp only [splitCharGo, if_neg hne]
    rw [ih (c :: acc) hrest]
    simp

/-- Splitting consumes the first separator occurrence. -/
theorem splitCharGo_sep (sep : Char) :
    ∀ (a b acc : List Char), sep ∉ a →
      splitCharGo sep (a ++ sep :: b) acc =
        String.mk (acc.reverse ++ a) :: splitCharGo sep b [] := by
  intro a
  induction a with
  | nil =>
    intro b acc _
    simp [splitCharGo]
  | cons c rest ih =>
    intro b acc hmem
    have hc : ¬ (c = sep) := by
      intro he; exact hmem (by simp [he])
    simp only [List.cons_append, splitCharGo, if_neg hc]
    show splitCharGo sep (rest ++ sep :: b) (c :: acc) = _
    rw [ih b (c :: acc) (fun h => hmem (by simp [h]))]
    simp

/-- Joining then splitting recovers a non-empty list of separator-free
pieces. -/
theorem pySplitChar_pyJoinChar (sep : Char) :
    ∀ (l : List String), l ≠ [] → (∀ piece ∈ l, sep ∉ piece.data) →
      pySplitChar sep (pyJoinChar sep l) = l := by
  intro l
  induction l with
  | nil => intro h _; exact absurd rfl h
  | cons s rest ih =>
    intro _ hfree
    cases rest with
    | nil =>
      show splitCharGo sep (pyJoinChar sep [s]).data [] = [s]
      have : pyJoinChar sep [s] = s := rfl
      rw [this, splitCharGo_no_sep sep s.data [] (hfree s (by simp))]
      simp
    | cons t ts =>
      show splitCharGo sep (pyJoinChar sep (s :: t :: ts)).data [] = s :: t :: ts
      have hdata : (pyJoinChar sep (s :: t :: ts)).data =
          s.data ++ sep :: (pyJoinChar sep (t :: ts)).data := by
        show (s ++ String.singleton sep ++ pyJoinChar sep (t :: ts)).data = _
        simp [String.data_append]
      rw [hdata, splitCharGo_sep sep s.data _ [] (hfree s (by simp))]
      simp only [List.reverse_nil, List.nil_append]
      rw [show String.mk s.data = s from rfl]
      have := ih (by simp) (fun p hp => hfree p (by simp [hp]))
      rw [show splitCharGo sep (pyJoinChar sep (t :: ts)).data [] =
        pySplitChar sep (pyJoinChar sep (t :: ts)) from rfl, this]

/-- Stripping never adds characters. -/
theorem mem_pyStripList (c : Char) (cs : List Char) (h : c ∈ pyStripList cs) : c ∈ cs := by
  have h1 : c ∈ (cs.dropWhile isPySpace).reverse.dropWhile isPySpace := by
    simpa [pyStripList] using h
  have h2 : c ∈ (cs.dropWhile isPySpace).reverse :=
    (List.dropWhile_sublist _).mem h1
  have h3 : c ∈ cs.dropWhile isPySpace := by simpa using h2
  exact (List.dropWhile_sublist _).mem h3

/-- Pieces produced by splitting contain no separator. -/
theorem splitCharGo_pieces (sep : Char) :
    ∀ (cs acc : List Char), sep ∉ acc →
      ∀ piece ∈ splitCharGo sep cs acc, sep ∉ piece.data := by
  intro cs
  induction cs with
  | nil =>
    intro acc hacc piece hp
    simp only [splitCharGo, List.mem_singleton] at hp
    subst hp
    simpa using fun h => hacc (by simpa using h)
  | cons c rest ih =>
    intro acc hacc piece hp
    by_cases hc : c = sep
    · rw [show splitCharGo sep (c :: rest) acc =
          String.mk acc.reverse :: splitCharGo sep rest [] by simp [splitCharGo, hc]] at hp
      rcases List.mem_cons.1 hp with hp | hp
      · subst hp
        simpa using fun h => hacc (by simpa using h)
      · exact ih [] (by simp) piece hp
    · rw [show splitCharGo sep (c :: rest) acc =
          splitCharGo sep rest (c :: acc) by simp [splitCharGo, hc]] at hp
      refine ih (c :: acc) ?_ piece hp
      intro hmem
      rcases List.mem_cons.1 hmem with h | h
      · exact hc h.symm
      · exact hacc h

/-- Every line of the clamp output is empty or a stripped input line. -/
theorem enforceGo_mem (maxB : Nat) :
    ∀ (lines : List String) (started : Bool) (count : Nat) (piece : String),
      piece ∈ enforceGo maxB lines started count →
      piece = "" ∨ ∃ line ∈ lines, piece = pyStrip line := by
  intro lines
  induction lines with
  | nil => intro started count piece hp; simp [enforceGo] at hp
  | cons line rest ih =>
    intro started count piece hp
    by_cases hempty : pyStrip line = ""
    · rcases ih started count piece (by simpa [enforceGo, hempty] using hp) with h | ⟨l, hl, he⟩
      · exact Or.inl h
      · exact Or.inr ⟨l, by simp [hl], he⟩
    · by_cases hbul : isBulletLine (pyStrip line) = true
      · by_cases hlt : count < maxB
        · rw [show enforceGo maxB (line :: rest) started count =
              pyStrip line :: enforceGo maxB rest true (count + 1) by
              simp [enforceGo, hempty, hbul, hlt]] at hp
          rcases List.mem_cons.1 hp with hp | hp
          · exact Or.inr ⟨line, by simp, hp⟩
          · rcases ih true (count + 1) piece hp with h | ⟨l, hl, he⟩
            · exact Or.inl h
            · exact Or.inr ⟨l, by simp [hl], he⟩
        · rcases ih started count piece (by simpa [enforceGo, hempty, hbul, hlt] using hp)
            with h | ⟨l, hl, he⟩
          · exact Or.inl h
          · exact Or.inr ⟨l, by simp [hl], he⟩
      · have hbul2 : isBulletLine (pyStrip line) = false := by simpa using hbul
        have hsplit : piece ∈ (if started then ["", pyStrip line] else [pyStrip line]) ∨
            piece ∈ enforceGo maxB rest true 0 := by
          cases started with
          | true =>
            rw [show enforceGo maxB (line :: rest) true count =
                "" :: pyStrip line :: enforceGo maxB rest true 0 by
                simp [enforceGo, hempty, hbul2]] at hp
            rcases List.mem_cons.1 hp with hp | hp
            · exact Or.inl (by simp [hp])
            · rcases List.mem_cons.1 hp with hp | hp
              · exact Or.inl (by simp [hp])
              · exact Or.inr hp
          | false =>
            rw [show enforceGo maxB (line :: rest) false count =
                pyStrip line :: enforceGo maxB rest true 0 by
                simp [enforceGo, hempty, hbul2]] at hp
            rcases List.mem_cons.1 hp with hp | hp
            · exact Or.inl (by simp [hp])
            · exact Or.inr hp
        rcases hsplit with hp2 | hp2
        · cases started with
          | true =>
            simp only [if_pos] at hp2
            rcases List.mem_cons.1 hp2 with h | h
            · exact Or.inl h
            · exact Or.inr ⟨line, by simp, by simpa using h⟩
          | false =>
            simp only [if_neg] at hp2
            exact Or.inr ⟨line, by simp, by simpa using hp2⟩
        · rcases ih true 0 piece hp2 with h | ⟨l, hl, he⟩
          · exact Or.inl h
          · exact Or.inr ⟨l, by simp [hl], he⟩

/-- The clamp output, re-split into lines, has no bullet run longer than
the cap. -/
theorem enforce_bullet_limit_runs (text : String) (maxB : Nat) :
    AllRunsLe maxB (pySplitChar '\n' (enforce_bullet_limit text maxB)) := by
  by_cases hout : enforceGo maxB (pySplitChar '\n' text) false 0 = []
  · rw [show enforce_bullet_limit text maxB =
      pyJoinChar '\n' (enforceGo maxB (pySplitChar '\n' text) false 0) from rfl, hout]
    show AllRunsLe maxB (pySplitChar '\n' "")
    rw [show pySplitChar '\n' "" = [""] from rfl]
    exact AllRunsLe.cons_nonbullet (by decide) AllRunsLe.nil
  · have hfree : ∀ piece ∈ enforceGo maxB (pySplitChar '\n' text) false 0,
        '\n' ∉ piece.data := by
      intro piece hp
      rcases enforceGo_mem maxB (pySplitChar '\n' text) false 0 piece hp with h | ⟨l, hl, he⟩
      · subst h; simp
      · subst he
        intro hc
        have hc2 : '\n' ∈ l.data := mem_pyStripList _ _ hc
        exact splitCharGo_pieces '\n' text.data [] (by simp) l hl hc2
    rw [show enforce_bullet_limit text maxB =
      pyJoinChar '\n' (enforceGo maxB (pySplitChar '\n' text) false 0) from rfl]
    rw [pySplitChar_pyJoinChar '\n' _ hout hfree]
    exact (enforceGo_runs maxB (pySplitChar '\n' text) false 0 (by omega)).1

/-- Claim C9, counterexample: the spec places the clamp *after* validation;
the code clamps inside `generate_experience`, *before* the validators run.
The two orderings are observably different: with a stub that always emits 6
bullets under a 5-bullet cap and `max_retries = 2`, the code-order stage
accepts attempt 0 (validators see the clamped 5-bullet text) and calls the
generator once, while the spec-order stage (validators see the raw 6-bullet
text) exhausts all 3 attempts. -/
theorem experience_clamp_counterexample :
    (experienceStage dummyEnv c9Profile "a job" [] c9RawGen {} 2).2.length = 1 ∧
    (experienceStageSpecOrder dummyEnv c9Profile "a job" [] c9RawGen {} 2).2.length = 3 := by
  constructor
  · decide
  · decide

/-- Claim C9, amended (Experience bullet clamp): `enforce_bullet_limit`
caps every role block — every maximal run of consecutive bullet lines in
its output, with block boundaries re-derived from non-bullet lines, has
length at most `m` — and in the experience stage the clamp runs
unconditionally *inside generation, before each validation*: every traced
attempt the validators see, and the final accepted text (validation passed
or not), is the cleaned output of `enforce_bullet_limit` on raw generator
output. -/
theorem experience_clamp_amended :
    (∀ (text : String) (m : Nat),
      AllRunsLe m (pySplitChar '\n' (enforce_bullet_limit text m))) ∧
    (∀ (env : GenEnv) (profile : PyProfile) (jd : String) (archetypes : List String)
      (rawGen : Nat → String → String → String) (rules : ValidationRules)
      (max_retries : Nat),
      (∀ j (h : j <
          (experienceStage env profile jd archetypes rawGen rules max_retries).2.length),
        ∃ (fb : Option String) (raw : String),
          (experienceStage env profile jd archetypes rawGen rules max_retries).2.get
            ⟨j, h⟩ = (fb, cleanText (enforce_bullet_limit raw MAX_BULLETS_PER_ROLE))) ∧
      (∃ (fb : Option String) (raw : String),
        (experienceStage env profile jd archetypes rawGen rules max_retries).1 =
          cleanText (enforce_bullet_limit raw MAX_BULLETS_PER_ROLE))) := by
  refine ⟨enforce_bullet_limit_runs, ?_⟩
  intro env profile jd archetypes rawGen rules max_retries
  obtain ⟨h1, h2, ⟨fbL, hL⟩, hEntries⟩ :=
    gwfGo_spec (fun i fb => generate_experience env profile jd archetypes (rawGen i) fb)
      (validatorsFor "experience" rules profile) (max_retries + 1) 0 none (by omega)
  constructor
  · intro j h
    have hj : j < (gwfGo
        (fun i fb => generate_experience env profile jd archetypes (rawGen i) fb)
        (validatorsFor "experience" rules profile) (max_retries + 1) 0 none).2.length := h
    obtain ⟨fb2, hfb2⟩ := hEntries j hj
    exact ⟨fb2, rawGen (0 + j) (expPrompt env profile jd archetypes fb2)
      "Experience Section", hfb2⟩
  · rcases List.getLast?_eq_some_iff.1 hL with ⟨ys, hys⟩
    have hmem : (fbL, (gwfGo
        (fun i fb => generate_experience env profile jd archetypes (rawGen i) fb)
        (validatorsFor "experience" rules profile) (max_retries + 1) 0 none).1) ∈
        (gwfGo (fun i fb => generate_experience env profile jd archetypes (rawGen i) fb)
          (validatorsFor "experience" rules profile) (max_retries + 1) 0 none).2 := by
      rw [hys]
      exact List.mem_append_right _ (by simp)
    rcases List.mem_iff_get.1 hmem with ⟨⟨j, hj⟩, hget⟩
    obtain ⟨fb2, hfb2⟩ := hEntries j hj
    rw [hget] at hfb2
    have heq2 : (gwfGo (fun i fb => generate_experience env profile jd archetypes
        (rawGen i) fb) (validatorsFor "experience" rules profile)
        (max_retries + 1) 0 none).1 =
        cleanText ((fun i fb => generate_experience env profile jd archetypes
          (rawGen i) fb) (0 + j) fb2) := congrArg Prod.snd hfb2
    exact ⟨fb2, rawGen (0 + j) (expPrompt env profile jd archetypes fb2)
      "Experience Section", heq2⟩

/-- Witness for the amended C9: the clamp identity of the final text and of
the first traced attempt at a concrete stub. -/
theorem experience_clamp_amended_witness :
    (∃ (fb : Option String) (raw : String),
      (experienceStage dummyEnv c9Profile "a job" [] c9RawGen {} 0).1 =
        cleanText (enforce_bullet_limit raw MAX_BULLETS_PER_ROLE)) ∧
    (∃ (fb : Option String) (raw : String),
      (experienceStage dummyEnv c9Profile "a job" [] c9RawGen {} 0).2.get
        ⟨0, by decide⟩ = (fb, cleanText (enforce_bullet_limit raw MAX_BULLETS_PER_ROLE))) :=
  ⟨(experience_clamp_amended.2 dummyEnv c9Profile "a job" [] c9RawGen {} 0).2,
   (experience_clamp_amended.2 dummyEnv c9Profile "a job" [] c9RawGen {} 0).1 0 (by decide)⟩

/-! ## Sanity checks (concrete evaluations of the embeddings) -/

example : pyStrip "  a b \n" = "a b" := by decide

example : pySplitChar ',' "a,,b" = ["a", "", "b"] := by decide

example : pySplitChar ',' "" = [""] := by decide

example : pySplitlines "a\nb\n" = ["a", "b"] := by decide

example : pySplitlines "" = [] := by decide

example : pySplitWs "  acme  corp " = ["acme", "corp"] := by decide

example : pyNormalize "  Acme   Corp " = "acme corp" := by decide

example : pyIn "cm" "acme" = true := by decide

example : pyIn "x" "acme" = false := by decide

example : pyJoinChar '\n' ["a", "b"] = "a\nb" := by decide

example : fix_unicode_escapes "a\\x41b" = "aAb" := by decide

example : enforce_bullet_limit "H\n- a\n- b\n- c\nG\n- d" 2 = "H\n- a\n- b\n\nG\n- d" := by
  decide

example :
    pre_filter_projects
      [⟨"alpha", "tools for data", []⟩, ⟨"beta", "data data pipelines", ["data"]⟩]
      "Data pipelines role" 1 = [⟨"beta", "data data pipelines", ["data"]⟩] := by decide

example :
    validate_archetypes
      (ArchInput.list [ArchElem.str "data_analytics", ArchElem.str "research_ml",
        ArchElem.str "cloud_devops"]) TASK_ARCHETYPES 3 = { valid := true, errors := [] } := by
  decide

example :
    (fact_check "experience" "nothing relevant here"
      { emptyProfile with experience := [⟨"Acme Corp", "", "", "", ""⟩] }).passed = false := by
  decide

example :
    fact_check "projects" "**Fabricated Project**" emptyProfile =
      { passed := true, violations := [], feedback := "" } := by decide
